import Mathlib

/-!
Shallow embedding of the CaptureGem protocol's escrow-and-accounting engine
(`programs/solana-program/src/instructions/{access,treasury,pinner,staking,moderation}.rs`)
and proofs of the spec's testable properties over it.

Conventions of the embedding:
* `u64` / `u128` values are `Nat`s; Rust's `checked_*` operations are modelled by
  functions that fail (with `MathOverflow`, as at every `.ok_or(MathOverflow)?`
  call site) when the mathematical result exceeds `U64_MAX` / `U128_MAX`.
  `saturating_sub` is `Nat` truncated subtraction, which has exactly the
  saturating semantics of the Rust operation on unsigned integers.
  A Rust `as u64` cast is `% 2 ^ 64` (wrapping).
* `i64` timestamps are `Int`s; `i64::checked_sub` fails when the mathematical
  difference leaves the `i64` range.
* Solana pubkeys are abstracted to `Nat`; the engine only compares them.
* SPL token accounts are abstracted to records holding `mint`, `owner` and
  `amount`; the byte-level reads in the source (mint at offset 0..32, owner at
  32..64, amount at 64..72, with the length guards) become direct field reads.
* Each instruction is a pure function from its pre-state and arguments to
  `Except ProtocolError` of its post-state and outputs.  An `Except.error`
  result models the Solana transaction aborting: no state change at all.
  Anchor account constraints that decide a claim (the `init` collision on the
  escrow PDA) are modelled as a leading check.
-/

namespace CaptureGem

/-- Pubkeys are only ever compared for equality by the engine, so an abstract
type with decidable equality suffices. -/
abbrev Pubkey := Nat

/-- A 32-byte hash (`[u8; 32]` in the source) is likewise only compared for
equality. -/
abbrev Hash := Nat

/-- Largest value representable in a `u64`. -/
def U64_MAX : Nat := 2 ^ 64 - 1

/-- Largest value representable in a `u128`. -/
def U128_MAX : Nat := 2 ^ 128 - 1

/-- Smallest value representable in an `i64`. -/
def I64_MIN : Int := -(2 ^ 63)

/-- Largest value representable in an `i64`. -/
def I64_MAX : Int := 2 ^ 63 - 1

/-- Error codes of `errors.rs`, together with `InvalidAccount` and
`PeerListTooLong` (referenced by the instruction code; their declarations sit
in a part of the crate not present in this tree) and `AccountAlreadyInUse`
(the system-program failure surfaced by Anchor's `init` when the PDA already
exists). -/
inductive ProtocolError where
  | Unauthorized
  | StringTooLong
  | InvalidFeeConfig
  | MathOverflow
  | NoShares
  | InvalidOraclePrice
  | InsufficientFunds
  | TicketAlreadyResolved
  | InsufficientModeratorStake
  | EscrowExpired
  | EscrowNotExpired
  | InvalidAccount
  | PeerListTooLong
  | AccountAlreadyInUse
  deriving Repr, DecidableEq

/-- `checked_mul` on `u64`, followed by `.ok_or(MathOverflow)?`. -/
def checked_mul_u64 (a b : Nat) : Except ProtocolError Nat :=
  if a * b ≤ U64_MAX then .ok (a * b) else .error .MathOverflow

/-- `checked_add` on `u64`, followed by `.ok_or(MathOverflow)?`. -/
def checked_add_u64 (a b : Nat) : Except ProtocolError Nat :=
  if a + b ≤ U64_MAX then .ok (a + b) else .error .MathOverflow

/-- `checked_sub` on an unsigned integer, followed by `.ok_or(MathOverflow)?`:
fails exactly on underflow. -/
def checked_sub_u (a b : Nat) : Except ProtocolError Nat :=
  if b ≤ a then .ok (a - b) else .error .MathOverflow

/-- `checked_div` on an unsigned integer, followed by `.ok_or(MathOverflow)?`:
fails exactly on division by zero. -/
def checked_div_u (a b : Nat) : Except ProtocolError Nat :=
  if b = 0 then .error .MathOverflow else .ok (a / b)

/-- `checked_mul` on `u128`, followed by `.ok_or(MathOverflow)?`. -/
def checked_mul_u128 (a b : Nat) : Except ProtocolError Nat :=
  if a * b ≤ U128_MAX then .ok (a * b) else .error .MathOverflow

/-- `checked_add` on `u128`, followed by `.ok_or(MathOverflow)?`. -/
def checked_add_u128 (a b : Nat) : Except ProtocolError Nat :=
  if a + b ≤ U128_MAX then .ok (a + b) else .error .MathOverflow

/-- `i64::checked_sub`, followed by `.ok_or(MathOverflow)?`: fails when the
difference leaves the `i64` range. -/
def checked_sub_i64 (a b : Int) : Except ProtocolError Int :=
  if I64_MIN ≤ a - b ∧ a - b ≤ I64_MAX then .ok (a - b) else .error .MathOverflow

/-- Anchor's `require!(cond, err)`: continue when the condition holds,
abort with the given error otherwise. -/
def protoRequire (p : Prop) [Decidable p] (e : ProtocolError) :
    Except ProtocolError Unit :=
  if p then .ok () else .error e

theorem ok_bind {α β : Type} (a : α) (f : α → Except ProtocolError β) :
    (Except.ok a >>= f) = f a := rfl

theorem error_bind {α β : Type} (e : ProtocolError) (f : α → Except ProtocolError β) :
    (Except.error e >>= f : Except ProtocolError β) = Except.error e := rfl

-- ============================================================================
-- Inversion helpers
-- ============================================================================

theorem bind_eq_ok {α β : Type} {m : Except ProtocolError α}
    {f : α → Except ProtocolError β} {r : β} (h : (m >>= f) = .ok r) :
    ∃ a, m = .ok a ∧ f a = .ok r := by
  cases m with
  | error e => exact absurd h (by simp [error_bind])
  | ok a => exact ⟨a, rfl, h⟩

theorem ok_inv {α : Type} {a b : α}
    (h : (Except.ok a : Except ProtocolError α) = .ok b) : b = a := by
  cases h
  rfl

theorem protoRequire_eq_ok {c : Prop} [Decidable c] {e : ProtocolError} {v : Unit}
    (h : protoRequire c e = .ok v) : c := by
  by_cases hc : c
  · exact hc
  · simp [protoRequire, hc] at h

theorem protoRequire_pos {c : Prop} [Decidable c] (e : ProtocolError) (hc : c) :
    protoRequire c e = .ok () := by
  simp [protoRequire, hc]

theorem protoRequire_neg {c : Prop} [Decidable c] (e : ProtocolError) (hc : ¬c) :
    protoRequire c e = .error e := by
  simp [protoRequire, hc]

theorem checked_mul_u64_eq_ok {a b v : Nat} (h : checked_mul_u64 a b = .ok v) :
    v = a * b ∧ a * b ≤ U64_MAX := by
  by_cases hc : a * b ≤ U64_MAX
  · simp [checked_mul_u64, hc] at h
    exact ⟨h.symm, hc⟩
  · simp [checked_mul_u64, hc] at h

theorem checked_add_u64_eq_ok {a b v : Nat} (h : checked_add_u64 a b = .ok v) :
    v = a + b ∧ a + b ≤ U64_MAX := by
  by_cases hc : a + b ≤ U64_MAX
  · simp [checked_add_u64, hc] at h
    exact ⟨h.symm, hc⟩
  · simp [checked_add_u64, hc] at h

theorem checked_sub_u_eq_ok {a b v : Nat} (h : checked_sub_u a b = .ok v) :
    v = a - b ∧ b ≤ a := by
  by_cases hc : b ≤ a
  · simp [checked_sub_u, hc] at h
    exact ⟨h.symm, hc⟩
  · simp [checked_sub_u, hc] at h

theorem checked_div_u_eq_ok {a b v : Nat} (h : checked_div_u a b = .ok v) :
    v = a / b ∧ b ≠ 0 := by
  by_cases hc : b = 0
  · simp [checked_div_u, hc] at h
  · simp [checked_div_u, hc] at h
    exact ⟨h.symm, hc⟩

theorem checked_mul_u128_eq_ok {a b v : Nat} (h : checked_mul_u128 a b = .ok v) :
    v = a * b ∧ a * b ≤ U128_MAX := by
  by_cases hc : a * b ≤ U128_MAX
  · simp [checked_mul_u128, hc] at h
    exact ⟨h.symm, hc⟩
  · simp [checked_mul_u128, hc] at h

theorem checked_add_u128_eq_ok {a b v : Nat} (h : checked_add_u128 a b = .ok v) :
    v = a + b ∧ a + b ≤ U128_MAX := by
  by_cases hc : a + b ≤ U128_MAX
  · simp [checked_add_u128, hc] at h
    exact ⟨h.symm, hc⟩
  · simp [checked_add_u128, hc] at h

theorem checked_sub_i64_eq_ok {a b : Int} {v : Int}
    (h : checked_sub_i64 a b = .ok v) : v = a - b := by
  unfold checked_sub_i64 at h
  split at h
  · exact ok_inv h
  · cases h

theorem require_bind {β : Type} {c : Prop} [Decidable c] {e : ProtocolError}
    {f : Unit → Except ProtocolError β} {r : β}
    (h : (protoRequire c e >>= f) = .ok r) : c ∧ f () = .ok r := by
  by_cases hc : c
  · rw [protoRequire_pos _ hc, ok_bind] at h
    exact ⟨hc, h⟩
  · rw [protoRequire_neg _ hc, error_bind] at h
    cases h

theorem okv_bind {α β : Type} {a : α} {f : α → Except ProtocolError β} {r : β}
    (h : (Except.ok a >>= f) = .ok r) : f a = .ok r := by
  rwa [ok_bind] at h

theorem cmul64_bind {β : Type} {a b : Nat} {f : Nat → Except ProtocolError β}
    {r : β} (h : (checked_mul_u64 a b >>= f) = .ok r) :
    a * b ≤ U64_MAX ∧ f (a * b) = .ok r := by
  unfold checked_mul_u64 at h
  split at h
  · rw [ok_bind] at h
    exact ⟨by assumption, h⟩
  · rw [error_bind] at h
    cases h

theorem cadd64_bind {β : Type} {a b : Nat} {f : Nat → Except ProtocolError β}
    {r : β} (h : (checked_add_u64 a b >>= f) = .ok r) :
    a + b ≤ U64_MAX ∧ f (a + b) = .ok r := by
  unfold checked_add_u64 at h
  split at h
  · rw [ok_bind] at h
    exact ⟨by assumption, h⟩
  · rw [error_bind] at h
    cases h

theorem csub_bind {β : Type} {a b : Nat} {f : Nat → Except ProtocolError β}
    {r : β} (h : (checked_sub_u a b >>= f) = .ok r) :
    b ≤ a ∧ f (a - b) = .ok r := by
  unfold checked_sub_u at h
  split at h
  · rw [ok_bind] at h
    exact ⟨by assumption, h⟩
  · rw [error_bind] at h
    cases h

theorem cdiv_bind {β : Type} {a b : Nat} {f : Nat → Except ProtocolError β}
    {r : β} (h : (checked_div_u a b >>= f) = .ok r) :
    b ≠ 0 ∧ f (a / b) = .ok r := by
  unfold checked_div_u at h
  split at h
  · rw [error_bind] at h
    cases h
  · rw [ok_bind] at h
    exact ⟨by assumption, h⟩

theorem cmul128_bind {β : Type} {a b : Nat} {f : Nat → Except ProtocolError β}
    {r : β} (h : (checked_mul_u128 a b >>= f) = .ok r) :
    a * b ≤ U128_MAX ∧ f (a * b) = .ok r := by
  unfold checked_mul_u128 at h
  split at h
  · rw [ok_bind] at h
    exact ⟨by assumption, h⟩
  · rw [error_bind] at h
    cases h

theorem cadd128_bind {β : Type} {a b : Nat} {f : Nat → Except ProtocolError β}
    {r : β} (h : (checked_add_u128 a b >>= f) = .ok r) :
    a + b ≤ U128_MAX ∧ f (a + b) = .ok r := by
  unfold checked_add_u128 at h
  split at h
  · rw [ok_bind] at h
    exact ⟨by assumption, h⟩
  · rw [error_bind] at h
    cases h

theorem csubi64_bind {β : Type} {a b : Int} {f : Int → Except ProtocolError β}
    {r : β} (h : (checked_sub_i64 a b >>= f) = .ok r) : f (a - b) = .ok r := by
  unfold checked_sub_i64 at h
  split at h
  · rwa [ok_bind] at h
  · rw [error_bind] at h
    cases h

theorem cmul64_pos {a b : Nat} (h : a * b ≤ U64_MAX) :
    checked_mul_u64 a b = .ok (a * b) := by
  simp [checked_mul_u64, h]

theorem cmul64_err {a b : Nat} (h : ¬a * b ≤ U64_MAX) :
    checked_mul_u64 a b = .error .MathOverflow := by
  simp [checked_mul_u64, h]

theorem cadd64_pos {a b : Nat} (h : a + b ≤ U64_MAX) :
    checked_add_u64 a b = .ok (a + b) := by
  simp [checked_add_u64, h]

theorem cadd64_err {a b : Nat} (h : ¬a + b ≤ U64_MAX) :
    checked_add_u64 a b = .error .MathOverflow := by
  simp [checked_add_u64, h]

theorem csub_pos {a b : Nat} (h : b ≤ a) : checked_sub_u a b = .ok (a - b) := by
  simp [checked_sub_u, h]

theorem csub_err {a b : Nat} (h : ¬b ≤ a) :
    checked_sub_u a b = .error .MathOverflow := by
  simp [checked_sub_u, h]

theorem cdiv_pos {a b : Nat} (h : b ≠ 0) : checked_div_u a b = .ok (a / b) := by
  simp [checked_div_u, h]

theorem cdiv100 (a : Nat) : checked_div_u a 100 = .ok (a / 100) := by
  simp [checked_div_u]

theorem cmul128_pos {a b : Nat} (h : a * b ≤ U128_MAX) :
    checked_mul_u128 a b = .ok (a * b) := by
  simp [checked_mul_u128, h]

theorem cmul128_err {a b : Nat} (h : ¬a * b ≤ U128_MAX) :
    checked_mul_u128 a b = .error .MathOverflow := by
  simp [checked_mul_u128, h]

/-- Anchored bind inversion: the callee `g` is passed explicitly so the
elaborator matches the bind structurally. -/
theorem call_bind {α β : Type} (g : Except ProtocolError α)
    {f : α → Except ProtocolError β} {r : β} (h : (g >>= f) = .ok r) :
    ∃ a, g = .ok a ∧ f a = .ok r := by
  cases hg : g with
  | error e => rw [hg, error_bind] at h; cases h
  | ok a => rw [hg, ok_bind] at h; exact ⟨a, rfl, h⟩

-- ============================================================================
-- Constants (constants.rs)
-- ============================================================================

/-- `ESCROW_EXPIRY_SECONDS = 24 * 3600` (24 hours). -/
def ESCROW_EXPIRY_SECONDS : Int := 24 * 3600

/-- `SPLIT_TO_STAKERS = 50` (percent of the after-fee purchase amount). -/
def SPLIT_TO_STAKERS : Nat := 50

/-- `SPLIT_TO_PEERS_ESCROW = 50` (percent of the after-fee purchase amount). -/
def SPLIT_TO_PEERS_ESCROW : Nat := 50

/-- `SPLIT_PINNER = 50` (percent of a fee harvest). -/
def SPLIT_PINNER : Nat := 50

/-- `SPLIT_OWNER = 20` (percent of a fee harvest). -/
def SPLIT_OWNER : Nat := 20

/-- `SPLIT_PERFORMER = 20` (percent of a fee harvest). -/
def SPLIT_PERFORMER : Nat := 20

/-- `SPLIT_STAKERS = 10` (percent of a fee harvest). -/
def SPLIT_STAKERS : Nat := 10

/-- `REWARD_PRECISION = 1_000_000_000_000` (1e12). -/
def REWARD_PRECISION : Nat := 1000000000000

/-- Modelled from the spec: `release_escrow` checks
`peer_wallets.len() <= MAX_PEER_LIST_LENGTH`; the constant's declaration is in
a part of the crate not present in this tree, and the spec only says the length
is "bounded".  No theorem below depends on the numeric value. -/
def MAX_PEER_LIST_LENGTH : Nat := 10

-- ============================================================================
-- State records (state.rs; collection fields that only the instruction code
-- references are included with the types their uses pin down)
-- ============================================================================

/-- `CollectionState`, restricted to the fields the embedded instructions read
or write.  `total_videos` (`u16`), `claimed_bitmap` (`Vec<u8>`, one byte per
eight video indices), `claim_vault_initial_amount` (`u64`), `total_shares`
(`u64`), `acc_reward_per_share` (`u128`) and `reward_pool_balance` (`u64`) are
referenced by `moderation.rs` / `treasury.rs` / `pinner.rs`; their field
declarations sit in a crate variant not present in this tree. -/
structure CollectionState where
  owner : Pubkey
  cid_hash : Hash
  is_blacklisted : Bool
  total_trust_score : Nat
  owner_reward_balance : Nat
  staker_reward_balance : Nat
  reward_pool_balance : Nat
  total_shares : Nat
  acc_reward_per_share : Nat
  tokens_minted : Bool
  total_videos : Nat
  claimed_bitmap : List Nat
  claim_vault_initial_amount : Nat
  deriving Repr, DecidableEq

/-- `AccessEscrow` (state.rs). -/
structure AccessEscrow where
  purchaser : Pubkey
  collection : Pubkey
  cid_hash : Hash
  amount_locked : Nat
  created_at : Int
  is_cid_revealed : Bool
  deriving Repr, DecidableEq

/-- `PeerTrustState` (state.rs). -/
structure PeerTrustState where
  peer_wallet : Pubkey
  total_successful_serves : Nat
  trust_score : Nat
  last_active : Int
  deriving Repr, DecidableEq

/-- `CollectionStakingPool` (state.rs). -/
structure CollectionStakingPool where
  collection : Pubkey
  total_staked : Nat
  reward_per_token : Nat
  deriving Repr, DecidableEq

/-- `StakerPosition` (state.rs). -/
structure StakerPosition where
  staker : Pubkey
  collection : Pubkey
  amount_staked : Nat
  reward_debt : Nat
  deriving Repr, DecidableEq

/-- `PinnerState` (state.rs), with the `shares` and `reward_debt` fields the
pinner instructions use. -/
structure PinnerState where
  collection : Pubkey
  pinner : Pubkey
  is_active : Bool
  shares : Nat
  reward_debt : Nat
  deriving Repr, DecidableEq

/-- `PerformerEscrow` balance tracked by `harvest_fees`. -/
structure PerformerEscrow where
  balance : Nat
  deriving Repr, DecidableEq

/-- `TicketType` (state.rs). -/
inductive TicketType where
  | ContentReport
  | CopyrightClaim
  | CidCensorship
  deriving Repr, DecidableEq

/-- `ModTicket` (state.rs), restricted to the fields `resolve_copyright_claim`
reads or writes (`claim_indices : Vec<u16>` is referenced by the instruction
code; its declaration sits in a crate variant not present in this tree). -/
structure ModTicket where
  reporter : Pubkey
  ticket_type : TicketType
  resolved : Bool
  verdict : Bool
  resolver : Option Pubkey
  claim_indices : List Nat
  deriving Repr, DecidableEq

/-- An SPL token account as the engine reads it: mint (bytes 0..32), owner
(bytes 32..64) and amount (little-endian u64 at bytes 64..72). -/
structure TokenAccountData where
  mint : Pubkey
  owner : Pubkey
  amount : Nat
  deriving Repr, DecidableEq

-- ============================================================================
-- purchase_access (access.rs lines 154-480)
-- ============================================================================

/-- Arguments and environment of `purchase_access` that are not the staking
pool: instruction arguments, the relevant `GlobalState` / `CollectionState`
fields, whether the escrow PDA for (purchaser, collection) already exists, and
the purchaser's collection-token balance. -/
structure PurchaseArgs where
  purchaser : Pubkey
  collection_key : Pubkey
  total_amount : Nat
  cid_hash : Hash
  fee_basis_points : Nat
  collection : CollectionState
  escrow_exists : Bool
  purchaser_balance : Nat
  now : Int
  deriving Repr, DecidableEq

/-- Outputs of a successful `purchase_access`. -/
structure PurchaseResult where
  fee : Nat
  to_stakers : Nat
  to_escrow : Nat
  remainder : Nat
  escrow : AccessEscrow
  pool : CollectionStakingPool
  purchaser_balance : Nat
  deriving Repr, DecidableEq

/-- The guarded fee/stakers/escrow transfers of `purchase_access`: a
`transfer_checked` of `amount` out of a balance, executed only when
`positive_only = false` or the amount is positive (access.rs lines 416-425
guard the fee transfer with `if total_fee > 0`).  Fails with the SPL
insufficient-funds error when the balance is too small. -/
def transfer_from (positive_only : Bool) (amount balance : Nat) :
    Except ProtocolError Nat :=
  if positive_only ∧ amount = 0 then Except.ok balance
  else do
    let _r ← protoRequire (amount ≤ balance) .InsufficientFunds
    Except.ok (balance - amount)

theorem transfer_from_eq_ok {p : Bool} {amount balance v : Nat}
    (h : transfer_from p amount balance = .ok v) :
    v = balance - amount ∧ (amount ≤ balance ∨ amount = 0) := by
  unfold transfer_from at h
  split at h
  · rename_i hc
    have := ok_inv h
    omega
  · obtain ⟨u, hu, h⟩ := bind_eq_ok h
    have := protoRequire_eq_ok hu
    have := ok_inv h
    omega

/-- The staking-pool credit of `purchase_access` (access.rs lines 441-451):
when the pool has stakers, `reward_per_token` grows by
`floor(amount * REWARD_PRECISION / total_staked)`, checked. -/
def pool_credit (pool : CollectionStakingPool) (amount : Nat) :
    Except ProtocolError CollectionStakingPool :=
  if pool.total_staked > 0 then do
    let scaled ← checked_mul_u128 amount REWARD_PRECISION
    let reward_increment ← checked_div_u scaled pool.total_staked
    let rpt ← checked_add_u128 pool.reward_per_token reward_increment
    Except.ok { pool with reward_per_token := rpt }
  else Except.ok pool

theorem pool_credit_eq_ok {pool : CollectionStakingPool} {amount : Nat}
    {pool' : CollectionStakingPool} (h : pool_credit pool amount = .ok pool') :
    pool.reward_per_token ≤ pool'.reward_per_token ∧
    pool'.total_staked = pool.total_staked ∧
    pool'.collection = pool.collection ∧
    (pool.total_staked = 0 → pool'.reward_per_token = pool.reward_per_token) := by
  unfold pool_credit at h
  split at h
  · rename_i hstk
    obtain ⟨hs1, h⟩ := cmul128_bind h
    obtain ⟨-, h⟩ := cdiv_bind h
    obtain ⟨-, h⟩ := cadd128_bind h
    have hp := ok_inv h
    subst hp
    exact ⟨Nat.le_add_right _ _, rfl, rfl, fun hz => absurd hz (by omega)⟩
  · have hp := ok_inv h
    subst hp
    exact ⟨Nat.le_refl _, rfl, rfl, fun _ => rfl⟩

/-- `purchase_access` (access.rs lines 154-480).  The NFT-minting and metadata
CPIs (steps that move no engine value) are not modelled; the three
`transfer_checked` CPIs are modelled on the purchaser's balance.  The leading
`escrow_exists` check models Anchor's `init` constraint on the escrow PDA
(access.rs lines 85-92): creating an already-existing account fails before the
instruction body runs. -/
def purchase_access (pool : CollectionStakingPool) (a : PurchaseArgs) :
    Except ProtocolError PurchaseResult := do
  let _r ← protoRequire (a.escrow_exists = false) .AccountAlreadyInUse
  let _r ← protoRequire (a.total_amount > 0) .InsufficientFunds
  let _r ← protoRequire (a.collection.is_blacklisted = false) .Unauthorized
  let _r ← protoRequire (a.cid_hash = a.collection.cid_hash) .Unauthorized
  -- fee = ceil(total_amount * fee_basis_points / 10000)
  let fee_mul ← checked_mul_u64 a.total_amount a.fee_basis_points
  let fee_num ← checked_add_u64 fee_mul (10000 - 1)
  let total_fee ← checked_div_u fee_num 10000
  let amount_after_fee ← checked_sub_u a.total_amount total_fee
  -- 50/50 split of the remaining amount
  let stakers_mul ← checked_mul_u64 amount_after_fee SPLIT_TO_STAKERS
  let amount_to_stakers ← checked_div_u stakers_mul 100
  let escrow_mul ← checked_mul_u64 amount_after_fee SPLIT_TO_PEERS_ESCROW
  let amount_to_escrow ← checked_div_u escrow_mul 100
  let total_split ← checked_add_u64 amount_to_stakers amount_to_escrow
  let remainder ← checked_sub_u amount_after_fee total_split
  let final_amount_to_stakers ← checked_add_u64 amount_to_stakers remainder
  -- escrow record is initialised with created_at = now, locked = to_escrow
  let escrow ← Except.ok ({ purchaser := a.purchaser
                            collection := a.collection_key
                            cid_hash := a.cid_hash
                            amount_locked := amount_to_escrow
                            created_at := a.now
                            is_cid_revealed := false } : AccessEscrow)
  -- transfer fee to treasury (if > 0)
  let bal1 ← transfer_from true total_fee a.purchaser_balance
  -- transfer the stakers' portion to the pool token account
  let bal2 ← transfer_from false final_amount_to_stakers bal1
  -- credit the staking-pool accumulator when the pool has stakers
  let pool' ← pool_credit pool final_amount_to_stakers
  -- transfer the escrow portion into the escrow token account
  let bal3 ← transfer_from false amount_to_escrow bal2
  Except.ok
    { fee := total_fee
      to_stakers := final_amount_to_stakers
      to_escrow := amount_to_escrow
      remainder := remainder
      escrow := escrow
      pool := pool'
      purchaser_balance := bal3 }

-- ============================================================================
-- release_escrow (access.rs lines 625-884)
-- ============================================================================

/-- The expiry guard of `release_escrow` (access.rs lines 653-661):
`time_elapsed = now.checked_sub(created_at)`, then
`require!(time_elapsed <= ESCROW_EXPIRY_SECONDS, EscrowExpired)`. -/
def release_time_check (created_at now : Int) : Except ProtocolError Unit := do
  let time_elapsed ← checked_sub_i64 now created_at
  protoRequire (time_elapsed ≤ ESCROW_EXPIRY_SECONDS) .EscrowExpired

/-- The expiry guard of `burn_expired_escrow` (access.rs lines 937-945):
`time_elapsed = now.checked_sub(created_at)`, then
`require!(time_elapsed > ESCROW_EXPIRY_SECONDS, EscrowNotExpired)`. -/
def burn_time_check (created_at now : Int) : Except ProtocolError Unit := do
  let time_elapsed ← checked_sub_i64 now created_at
  protoRequire (time_elapsed > ESCROW_EXPIRY_SECONDS) .EscrowNotExpired

/-- One peer's slice of the `remaining_accounts` array of `release_escrow`:
the peer's token account followed by the peer-trust PDA, which is `none` when
that account has no data yet (the source then skips the trust update). -/
structure PeerAccounts where
  token : TokenAccountData
  trust : Option PeerTrustState
  deriving Repr, DecidableEq

/-- The peer-trust update of `release_escrow` (access.rs lines 776-805):
when the trust PDA holds data, the record is verified and updated (checked);
when it is empty the update is skipped with a log line, not an error.  The
returned list holds the written record, when any. -/
def peer_trust_update (trust : Option PeerTrustState) (peer_wallet : Pubkey)
    (weight : Nat) (now : Int) :
    Except ProtocolError (List PeerTrustState) :=
  match trust with
  | some st => do
      let _r ← protoRequire (st.peer_wallet = peer_wallet) .Unauthorized
      let serves ← checked_add_u64 st.total_successful_serves 1
      let score ← checked_add_u64 st.trust_score weight
      Except.ok [{ st with
        total_successful_serves := serves
        trust_score := score
        last_active := now }]
  | none => Except.ok []

/-- Outputs of a successful `release_escrow`. -/
structure ReleaseResult where
  payments : List (Pubkey × Nat)
  total_sent : Nat
  escrow_token_balance : Nat
  trust_updates : List PeerTrustState
  escrow : AccessEscrow
  collection : CollectionState
  deriving Repr, DecidableEq

/-- The peer loop of `release_escrow` (access.rs lines 701-854): for each peer
in list order, compute `peer_share = amount_locked * weight / total_weight`
(checked), clamp it to the balance remaining under `amount_locked`, and when
positive verify the destination token account and transfer; the trust record is
updated only when it exists.  `payments` records each peer's amount in order
(an amount of 0 means no transfer was executed for that peer). -/
def release_loop (amount_locked total_weight : Nat) (mint_key : Pubkey)
    (now : Int) :
    List Pubkey → List Nat → List PeerAccounts → Nat → Nat →
    Except ProtocolError (Nat × Nat × List (Pubkey × Nat) × List PeerTrustState)
  | [], _, _, total_sent, escrow_balance =>
      .ok (total_sent, escrow_balance, [], [])
  | peer_wallet :: ws, weight :: wts, pa :: pas, total_sent, escrow_balance => do
      let share_mul ← checked_mul_u64 amount_locked weight
      let peer_share ← checked_div_u share_mul total_weight
      let remaining_balance ← checked_sub_u amount_locked total_sent
      let peer_amount ← Except.ok
        (if peer_share > remaining_balance then remaining_balance else peer_share)
      if peer_amount > 0 then do
        let _r ← protoRequire (pa.token.owner = peer_wallet) .Unauthorized
        let _r ← protoRequire (pa.token.mint = mint_key) .Unauthorized
        let trust_upd ← peer_trust_update pa.trust peer_wallet weight now
        let _r ← protoRequire (peer_amount ≤ escrow_balance) .InsufficientFunds
        let total_sent' ← checked_add_u64 total_sent peer_amount
        let (fs, fb, pays, trusts) ←
          release_loop amount_locked total_weight mint_key now ws wts pas
            total_sent' (escrow_balance - peer_amount)
        Except.ok (fs, fb, (peer_wallet, peer_amount) :: pays, trust_upd ++ trusts)
      else do
        let (fs, fb, pays, trusts) ←
          release_loop amount_locked total_weight mint_key now ws wts pas
            total_sent escrow_balance
        Except.ok (fs, fb, (peer_wallet, 0) :: pays, trusts)
  | _, _, _, _, _ =>
      -- unreachable: the guards in release_escrow force equal-length lists
      .error .InvalidFeeConfig

/-- `release_escrow` (access.rs lines 625-884).  `escrow_token_balance` is the
balance of the escrow's token account (the transfer source). -/
def release_escrow (escrow : AccessEscrow) (collection : CollectionState)
    (mint_key : Pubkey) (now : Int) (escrow_token_balance : Nat)
    (peer_wallets : List Pubkey) (peer_weights : List Nat)
    (peer_accounts : List PeerAccounts) :
    Except ProtocolError ReleaseResult := do
  let _r ← protoRequire
    (peer_wallets.length = peer_weights.length ∧ peer_wallets ≠ [])
    .InvalidFeeConfig
  let _r ← protoRequire (peer_wallets.length ≤ MAX_PEER_LIST_LENGTH) .PeerListTooLong
  let _r ← release_time_check escrow.created_at now
  let _r ← protoRequire (escrow.amount_locked > 0) .InsufficientFunds
  let total_weight ← Except.ok peer_weights.sum
  let _r ← protoRequire (total_weight > 0) .InvalidFeeConfig
  let amount_locked ← Except.ok escrow.amount_locked
  -- remaining_accounts.len() >= peer_wallets.len() * 2, in pairs
  let _r ← protoRequire (peer_wallets.length ≤ peer_accounts.length) .InvalidFeeConfig
  let (total_sent, final_balance, payments, trust_updates) ←
    release_loop amount_locked total_weight mint_key now
      peer_wallets peer_weights peer_accounts 0 escrow_token_balance
  let total_trust_increment ← Except.ok peer_weights.sum
  let new_trust ← checked_add_u64 collection.total_trust_score total_trust_increment
  Except.ok
    { payments := payments
      total_sent := total_sent
      escrow_token_balance := final_balance
      trust_updates := trust_updates
      escrow := { escrow with amount_locked := 0 }
      collection := { collection with total_trust_score := new_trust } }

-- ============================================================================
-- burn_expired_escrow (access.rs lines 933-1000)
-- ============================================================================

/-- Outputs of a successful `burn_expired_escrow`. -/
structure BurnResult where
  burned : Nat
  escrow_closed : Bool
  deriving Repr, DecidableEq

/-- `burn_expired_escrow` (access.rs lines 933-1000).  The burn amount is the
escrow token account's actual balance, not the recorded `amount_locked`; the
`close = caller` constraint closes the escrow record only when the instruction
succeeds. -/
def burn_expired_escrow (escrow : AccessEscrow) (now : Int)
    (escrow_token_balance : Nat) : Except ProtocolError BurnResult := do
  let _r ← burn_time_check escrow.created_at now
  let actual_balance ← Except.ok escrow_token_balance
  let _r ← protoRequire (actual_balance > 0) .InsufficientFunds
  let amount_to_burn ← Except.ok actual_balance
  Except.ok { burned := amount_to_burn, escrow_closed := true }

-- ============================================================================
-- Collection-token staking (staking.rs lines 155-449)
-- ============================================================================

/-- Outputs of a successful `stake_collection_tokens`: `reward_paid` is the
amount of pending reward actually transferred to the staker during the stake
(the source only logs the auto-claim; it executes no reward transfer). -/
structure StakeResult where
  pool : CollectionStakingPool
  position : StakerPosition
  staked_transferred : Nat
  reward_paid : Nat
  deriving Repr, DecidableEq

/-- The `init_if_needed` initialisation of the staking pool in
`stake_collection_tokens` (staking.rs lines 166-171): a pool whose
`collection` is still `Pubkey::default()` (0 here) is freshly zeroed. -/
def pool_or_init (pool : CollectionStakingPool) (collection_key : Pubkey) :
    CollectionStakingPool :=
  if pool.collection = 0 then
    { collection := collection_key, total_staked := 0, reward_per_token := 0 }
  else pool

/-- The `init_if_needed` initialisation of the staker position in
`stake_collection_tokens` (staking.rs lines 174-180). -/
def position_or_init (position : StakerPosition) (staker collection_key : Pubkey) :
    StakerPosition :=
  if position.staker = 0 then
    { staker := staker, collection := collection_key
      amount_staked := 0, reward_debt := 0 }
  else position

theorem pool_or_init_ne {pool : CollectionStakingPool} {ck : Pubkey}
    (h : pool.collection ≠ 0) : pool_or_init pool ck = pool := by
  simp [pool_or_init, h]

theorem position_or_init_ne {position : StakerPosition} {st ck : Pubkey}
    (h : position.staker ≠ 0) : position_or_init position st ck = position := by
  simp [position_or_init, h]

/-- The auto-claim block of `stake_collection_tokens` (staking.rs lines
182-198): the pending reward is computed (checked) and logged, but no
transfer is performed (the CPI is absent in the source). -/
def stake_auto_claim (position : StakerPosition) (pool : CollectionStakingPool) :
    Except ProtocolError Unit :=
  if position.amount_staked > 0 then do
    let acc ← checked_mul_u128 position.amount_staked pool.reward_per_token
    let _pending ← checked_sub_u acc position.reward_debt
    Except.ok ()
  else Except.ok ()

/-- `stake_collection_tokens` (staking.rs lines 155-233).  The `init_if_needed`
branches are modelled on the `collection == Pubkey::default()` /
`staker == Pubkey::default()` sentinels exactly as in the source (`Pubkey`
default is 0 here). -/
def stake_collection_tokens (pool₀ : CollectionStakingPool)
    (position₀ : StakerPosition) (staker collection_key : Pubkey)
    (amount staker_balance : Nat) : Except ProtocolError StakeResult := do
  let _r ← protoRequire (amount > 0) .InsufficientFunds
  let pool ← Except.ok (pool_or_init pool₀ collection_key)
  let position ← Except.ok (position_or_init position₀ staker collection_key)
  -- auto-claim of pending rewards: computed and logged, never transferred
  let _r ← stake_auto_claim position pool
  -- transfer `amount` from the staker to the pool token account
  let _r ← protoRequire (amount ≤ staker_balance) .InsufficientFunds
  let total_staked ← checked_add_u64 pool.total_staked amount
  let amount_staked ← checked_add_u64 position.amount_staked amount
  let reward_debt ← checked_mul_u128 amount_staked pool.reward_per_token
  Except.ok
    { pool := { pool with total_staked := total_staked }
      position := { position with amount_staked := amount_staked, reward_debt := reward_debt }
      staked_transferred := amount
      reward_paid := 0 }

/-- Outputs of a successful `claim_staking_rewards`. -/
structure ClaimStakingResult where
  position : StakerPosition
  reward_paid : Nat
  deriving Repr, DecidableEq

/-- `claim_staking_rewards` (staking.rs lines 276-332).  The `as u64` cast of
`pending / REWARD_PRECISION` is wrapping, hence the `% 2 ^ 64`. -/
def claim_staking_rewards (pool : CollectionStakingPool)
    (position : StakerPosition) (pool_token_balance : Nat) :
    Except ProtocolError ClaimStakingResult := do
  let _r ← protoRequire (position.amount_staked > 0) .InsufficientFunds
  let acc ← checked_mul_u128 position.amount_staked pool.reward_per_token
  let pending ← checked_sub_u acc position.reward_debt
  let pending_tokens ← Except.ok ((pending / REWARD_PRECISION) % 2 ^ 64)
  let _r ← protoRequire (pending_tokens > 0) .InsufficientFunds
  let _r ← protoRequire (pending_tokens ≤ pool_token_balance) .InsufficientFunds
  let reward_debt ← checked_mul_u128 position.amount_staked pool.reward_per_token
  Except.ok
    { position := { position with reward_debt := reward_debt }
      reward_paid := pending_tokens }

/-- Outputs of a successful `unstake_collection_tokens`. -/
structure UnstakeResult where
  pool : CollectionStakingPool
  position : StakerPosition
  total_transferred : Nat
  deriving Repr, DecidableEq

/-- `unstake_collection_tokens` (staking.rs lines 375-449). -/
def unstake_collection_tokens (pool : CollectionStakingPool)
    (position : StakerPosition) (amount pool_token_balance : Nat) :
    Except ProtocolError UnstakeResult := do
  let _r ← protoRequire (amount > 0) .InsufficientFunds
  let _r ← protoRequire (position.amount_staked ≥ amount) .InsufficientFunds
  let acc ← checked_mul_u128 position.amount_staked pool.reward_per_token
  let pending ← checked_sub_u acc position.reward_debt
  let pending_tokens ← Except.ok ((pending / REWARD_PRECISION) % 2 ^ 64)
  let total_transfer ← checked_add_u64 amount pending_tokens
  let _r ← protoRequire (total_transfer ≤ pool_token_balance) .InsufficientFunds
  let total_staked ← checked_sub_u pool.total_staked amount
  let amount_staked ← checked_sub_u position.amount_staked amount
  let reward_debt ← checked_mul_u128 amount_staked pool.reward_per_token
  Except.ok
    { pool := { pool with total_staked := total_staked }
      position := { position with amount_staked := amount_staked, reward_debt := reward_debt }
      total_transferred := total_transfer }

-- ============================================================================
-- Pinner rewards (pinner.rs)
-- ============================================================================

/-- `register_collection_host` (pinner.rs lines 70-91). -/
def register_collection_host (collection : CollectionState)
    (collection_key pinner : Pubkey) :
    Except ProtocolError (CollectionState × PinnerState) := do
  let shares ← Except.ok 1
  let total_shares ← checked_add_u64 collection.total_shares shares
  let reward_debt ← checked_mul_u128 shares collection.acc_reward_per_share
  Except.ok
    ({ collection with total_shares := total_shares },
     { collection := collection_key, pinner := pinner, is_active := true
       shares := shares, reward_debt := reward_debt })

/-- Outputs of a successful pinner `claim_rewards`. -/
structure PinnerClaimResult where
  collection : CollectionState
  pinner_state : PinnerState
  reward_paid : Nat
  deriving Repr, DecidableEq

/-- Pinner `claim_rewards` (pinner.rs lines 93-172), as written: `pending` is
computed with `saturating_sub` (line 113-114), and the `as u64` cast of
`pending / REWARD_PRECISION` is wrapping. -/
def claim_rewards (collection : CollectionState) (pinner_state : PinnerState)
    (fee_vault_amount : Nat) : Except ProtocolError PinnerClaimResult := do
  let _r ← protoRequire (pinner_state.is_active = true) .Unauthorized
  let accumulated ← checked_mul_u128 pinner_state.shares collection.acc_reward_per_share
  let pending ← Except.ok (accumulated - pinner_state.reward_debt)
  let _r ← protoRequire (pending > 0) .InsufficientFunds
  let pending_tokens ← Except.ok ((pending / REWARD_PRECISION) % 2 ^ 64)
  let _r ← protoRequire (pending_tokens > 0) .InsufficientFunds
  let _r ← protoRequire (fee_vault_amount ≥ pending_tokens) .InsufficientFunds
  let reward_pool_balance ← checked_sub_u collection.reward_pool_balance pending_tokens
  Except.ok
    { collection := { collection with reward_pool_balance := reward_pool_balance }
      pinner_state := { pinner_state with reward_debt := accumulated }
      reward_paid := pending_tokens }

/-- Follows the spec's words ("all arithmetic must use overflow-checked
operations that fail loudly rather than wrap"): pinner `claim_rewards` with the
`saturating_sub` at pinner.rs line 113-114 replaced by a checked subtraction.
Compared against `claim_rewards` to settle the claim that every arithmetic
step is checked. -/
def claim_rewards_all_checked (collection : CollectionState)
    (pinner_state : PinnerState) (fee_vault_amount : Nat) :
    Except ProtocolError PinnerClaimResult := do
  let _r ← protoRequire (pinner_state.is_active = true) .Unauthorized
  let accumulated ← checked_mul_u128 pinner_state.shares collection.acc_reward_per_share
  let pending ← checked_sub_u accumulated pinner_state.reward_debt
  let _r ← protoRequire (pending > 0) .InsufficientFunds
  let pending_tokens ← Except.ok ((pending / REWARD_PRECISION) % 2 ^ 64)
  let _r ← protoRequire (pending_tokens > 0) .InsufficientFunds
  let _r ← protoRequire (fee_vault_amount ≥ pending_tokens) .InsufficientFunds
  let reward_pool_balance ← checked_sub_u collection.reward_pool_balance pending_tokens
  Except.ok
    { collection := { collection with reward_pool_balance := reward_pool_balance }
      pinner_state := { pinner_state with reward_debt := accumulated }
      reward_paid := pending_tokens }

-- ============================================================================
-- harvest_fees (treasury.rs lines 56-227)
-- ============================================================================

/-- Outputs of a successful `harvest_fees`. -/
structure HarvestResult where
  collection : CollectionState
  performer_escrow : PerformerEscrow
  fee_vault_amount : Nat
  pinner_share : Nat
  owner_share : Nat
  performer_share : Nat
  staker_share : Nat
  deriving Repr, DecidableEq

/-- `harvest_fees` (treasury.rs lines 56-227), as written: the rounding
remainder is computed with `saturating_sub` and added with
`checked_add(...).unwrap_or(pinner_share)` (lines 109-110).  The harvested
amount is the fee vault's balance; the owner/performer/staker transfers leave
the vault, the pinner share stays in it for later claims. -/
def harvest_fees (authority : Pubkey) (admin : Pubkey)
    (collection : CollectionState) (performer_escrow : PerformerEscrow)
    (fee_vault_amount : Nat) : Except ProtocolError HarvestResult := do
  let _r ← protoRequire (authority = collection.owner ∨ authority = admin) .Unauthorized
  let harvested_amount ← Except.ok fee_vault_amount
  let _r ← protoRequire (harvested_amount > 0) .InsufficientFunds
  let pinner_mul ← checked_mul_u64 harvested_amount SPLIT_PINNER
  let pinner_share ← checked_div_u pinner_mul 100
  let owner_mul ← checked_mul_u64 harvested_amount SPLIT_OWNER
  let owner_share ← checked_div_u owner_mul 100
  let performer_mul ← checked_mul_u64 harvested_amount SPLIT_PERFORMER
  let performer_share ← checked_div_u performer_mul 100
  let staker_mul ← checked_mul_u64 harvested_amount SPLIT_STAKERS
  let staker_share ← checked_div_u staker_mul 100
  let ps ← checked_add_u64 pinner_share owner_share
  let ps2 ← checked_add_u64 ps performer_share
  let total_split ← checked_add_u64 ps2 staker_share
  -- remainder via saturating_sub; fallback add via unwrap_or
  let remainder ← Except.ok (harvested_amount - total_split)
  let final_pinner_share ← Except.ok
    (if pinner_share + remainder ≤ U64_MAX then pinner_share + remainder else pinner_share)
  -- transfers out of the fee vault happen before any balance update
  let vault1 ← Except.ok (fee_vault_amount - owner_share)
  let vault2 ← Except.ok (vault1 - performer_share)
  let vault3 ← Except.ok (vault2 - staker_share)
  -- credit the pinner accumulator when there are shares
  let collection1 ←
    if collection.total_shares > 0 ∧ final_pinner_share > 0 then do
      let scaled ← checked_mul_u128 final_pinner_share REWARD_PRECISION
      let reward_added ← checked_div_u scaled collection.total_shares
      let acc ← checked_add_u128 collection.acc_reward_per_share reward_added
      Except.ok { collection with acc_reward_per_share := acc }
    else Except.ok collection
  let reward_pool_balance ← checked_add_u64 collection1.reward_pool_balance final_pinner_share
  let owner_reward_balance ← checked_add_u64 collection1.owner_reward_balance owner_share
  let performer_balance ← checked_add_u64 performer_escrow.balance performer_share
  let staker_reward_balance ← checked_add_u64 collection1.staker_reward_balance staker_share
  Except.ok
    { collection := { collection1 with
        reward_pool_balance := reward_pool_balance
        owner_reward_balance := owner_reward_balance
        staker_reward_balance := staker_reward_balance }
      performer_escrow := { balance := performer_balance }
      fee_vault_amount := vault3
      pinner_share := final_pinner_share
      owner_share := owner_share
      performer_share := performer_share
      staker_share := staker_share }

/-- Follows the spec's words ("all arithmetic must use overflow-checked
operations that fail loudly rather than wrap"): `harvest_fees` with the
`saturating_sub` and the `unwrap_or` fallback at treasury.rs lines 109-110
replaced by checked operations.  Compared against `harvest_fees` to settle the
claim that every arithmetic step is checked. -/
def harvest_fees_all_checked (authority : Pubkey) (admin : Pubkey)
    (collection : CollectionState) (performer_escrow : PerformerEscrow)
    (fee_vault_amount : Nat) : Except ProtocolError HarvestResult := do
  let _r ← protoRequire (authority = collection.owner ∨ authority = admin) .Unauthorized
  let harvested_amount ← Except.ok fee_vault_amount
  let _r ← protoRequire (harvested_amount > 0) .InsufficientFunds
  let pinner_mul ← checked_mul_u64 harvested_amount SPLIT_PINNER
  let pinner_share ← checked_div_u pinner_mul 100
  let owner_mul ← checked_mul_u64 harvested_amount SPLIT_OWNER
  let owner_share ← checked_div_u owner_mul 100
  let performer_mul ← checked_mul_u64 harvested_amount SPLIT_PERFORMER
  let performer_share ← checked_div_u performer_mul 100
  let staker_mul ← checked_mul_u64 harvested_amount SPLIT_STAKERS
  let staker_share ← checked_div_u staker_mul 100
  let ps ← checked_add_u64 pinner_share owner_share
  let ps2 ← checked_add_u64 ps performer_share
  let total_split ← checked_add_u64 ps2 staker_share
  let remainder ← checked_sub_u harvested_amount total_split
  let final_pinner_share ← checked_add_u64 pinner_share remainder
  let vault1 ← Except.ok (fee_vault_amount - owner_share)
  let vault2 ← Except.ok (vault1 - performer_share)
  let vault3 ← Except.ok (vault2 - staker_share)
  let collection1 ←
    if collection.total_shares > 0 ∧ final_pinner_share > 0 then do
      let scaled ← checked_mul_u128 final_pinner_share REWARD_PRECISION
      let reward_added ← checked_div_u scaled collection.total_shares
      let acc ← checked_add_u128 collection.acc_reward_per_share reward_added
      Except.ok { collection with acc_reward_per_share := acc }
    else Except.ok collection
  let reward_pool_balance ← checked_add_u64 collection1.reward_pool_balance final_pinner_share
  let owner_reward_balance ← checked_add_u64 collection1.owner_reward_balance owner_share
  let performer_balance ← checked_add_u64 performer_escrow.balance performer_share
  let staker_reward_balance ← checked_add_u64 collection1.staker_reward_balance staker_share
  Except.ok
    { collection := { collection1 with
        reward_pool_balance := reward_pool_balance
        owner_reward_balance := owner_reward_balance
        staker_reward_balance := staker_reward_balance }
      performer_escrow := { balance := performer_balance }
      fee_vault_amount := vault3
      pinner_share := final_pinner_share
      owner_share := owner_share
      performer_share := performer_share
      staker_share := staker_share }

-- ============================================================================
-- resolve_copyright_claim (moderation.rs lines 200-310)
-- ============================================================================

/-- The claimed-bit read of moderation.rs line 244:
`(claimed_bitmap[byte_idx] >> bit_idx) & 1` for video index `idx`. -/
def bit_is_claimed (bitmap : List Nat) (idx : Nat) : Nat :=
  (bitmap.getD (idx / 8) 0) >>> (idx % 8) &&& 1

/-- The double-claim check loop of moderation.rs lines 236-246: for each video
index, the byte index must be inside the bitmap and the bit must be unset. -/
def check_claim_indices (bitmap : List Nat) :
    List Nat → Except ProtocolError Unit
  | [] => .ok ()
  | video_idx :: rest => do
      let byte_idx ← Except.ok (video_idx / 8)
      let _r ← protoRequire (byte_idx < bitmap.length) .InvalidAccount
      let is_claimed ← Except.ok (bit_is_claimed bitmap video_idx)
      let _r ← protoRequire (is_claimed = 0) .Unauthorized
      check_claim_indices bitmap rest

/-- One step of the bitmap update loop of moderation.rs lines 263-267:
`claimed_bitmap[byte_idx] |= 1 << bit_idx`. -/
def set_claim_bit (bitmap : List Nat) (video_idx : Nat) : List Nat :=
  bitmap.set (video_idx / 8)
    ((bitmap.getD (video_idx / 8) 0) ||| (1 <<< (video_idx % 8)))

/-- The bitmap update loop of moderation.rs lines 263-267. -/
def set_claim_indices (bitmap : List Nat) : List Nat → List Nat
  | [] => bitmap
  | video_idx :: rest => set_claim_indices (set_claim_bit bitmap video_idx) rest

/-- Outputs of a successful `resolve_copyright_claim`: the updated ticket and
collection, the claim vault's remaining balance, and the payout transferred
(0 when the verdict was a rejection). -/
structure ResolveClaimResult where
  ticket : ModTicket
  collection : CollectionState
  claim_vault_balance : Nat
  payout : Nat
  deriving Repr, DecidableEq

/-- `resolve_copyright_claim` (moderation.rs lines 200-310).
`claim_vault_balance` is the balance of the collection's claim vault token
account; the final `transfer_checked` fails when it is below the payout.  An
`Except.error` models the transaction aborting with no change to the ticket,
the bitmap or the vault. -/
def resolve_copyright_claim (ticket : ModTicket) (collection : CollectionState)
    (claim_vault_balance : Nat) (moderator : Pubkey) (verdict : Bool) :
    Except ProtocolError ResolveClaimResult := do
  let _r ← protoRequire (ticket.ticket_type = TicketType.CopyrightClaim) .Unauthorized
  let _r ← protoRequire (ticket.resolved = false) .TicketAlreadyResolved
  let ticket' ← Except.ok { ticket with
    resolved := true
    verdict := verdict
    resolver := some moderator }
  if verdict then do
    let _r ← protoRequire
      (collection.tokens_minted = true ∧ collection.claim_vault_initial_amount > 0)
      .InvalidFeeConfig
    let _r ← protoRequire (ticket.claim_indices ≠ []) .InvalidFeeConfig
    let _r ← check_claim_indices collection.claimed_bitmap ticket.claim_indices
    let count_claimed ← Except.ok ticket.claim_indices.length
    let per_video_share ← checked_div_u collection.claim_vault_initial_amount collection.total_videos
    let payout_amount ← checked_mul_u64 per_video_share count_claimed
    let _r ← protoRequire (payout_amount > 0) .InsufficientFunds
    let bitmap' ← Except.ok (set_claim_indices collection.claimed_bitmap ticket.claim_indices)
    let _r ← protoRequire (payout_amount ≤ claim_vault_balance) .InsufficientFunds
    Except.ok
      { ticket := ticket'
        collection := { collection with claimed_bitmap := bitmap' }
        claim_vault_balance := claim_vault_balance - payout_amount
        payout := payout_amount }
  else
    Except.ok
      { ticket := ticket'
        collection := collection
        claim_vault_balance := claim_vault_balance
        payout := 0 }

-- ============================================================================
-- Operation sequences touching the two reward accumulators
-- ============================================================================

/-- An operation on a collection's staking pool, bundling the per-call inputs
that are not the pool itself.  These are all the instructions that read or
write `CollectionStakingPool`. -/
inductive StakingPoolOp where
  | purchaseOp (a : PurchaseArgs)
  | stakeOp (position : StakerPosition) (staker collection_key : Pubkey)
      (amount staker_balance : Nat)
  | unstakeOp (position : StakerPosition) (amount pool_token_balance : Nat)
  | claimOp (position : StakerPosition) (pool_token_balance : Nat)
  deriving Repr

/-- Run one staking-pool operation via the corresponding embedded instruction
and keep the resulting pool (`claim_staking_rewards` does not write the
pool). -/
def apply_pool_op (pool : CollectionStakingPool) :
    StakingPoolOp → Except ProtocolError CollectionStakingPool
  | .purchaseOp a => (purchase_access pool a).map (·.pool)
  | .stakeOp position staker ck amount bal =>
      (stake_collection_tokens pool position staker ck amount bal).map (·.pool)
  | .unstakeOp position amount bal =>
      (unstake_collection_tokens pool position amount bal).map (·.pool)
  | .claimOp position bal =>
      (claim_staking_rewards pool position bal).map (fun _ => pool)

/-- Run a sequence of staking-pool operations; any failure aborts the run. -/
def run_pool_ops (pool : CollectionStakingPool) :
    List StakingPoolOp → Except ProtocolError CollectionStakingPool
  | [] => .ok pool
  | op :: ops => do
      let pool' ← apply_pool_op pool op
      run_pool_ops pool' ops

/-- An operation on a collection's pinner-reward ledger, bundling the per-call
inputs that are not the collection itself.  These are all the instructions
that read or write `acc_reward_per_share`. -/
inductive CollectionRewardOp where
  | harvestOp (authority admin : Pubkey) (performer_escrow : PerformerEscrow)
      (fee_vault_amount : Nat)
  | registerOp (collection_key pinner : Pubkey)
  | pinnerClaimOp (pinner_state : PinnerState) (fee_vault_amount : Nat)
  deriving Repr

/-- Run one pinner-ledger operation via the corresponding embedded instruction
and keep the resulting collection. -/
def apply_collection_op (collection : CollectionState) :
    CollectionRewardOp → Except ProtocolError CollectionState
  | .harvestOp authority admin pe vault =>
      (harvest_fees authority admin collection pe vault).map (·.collection)
  | .registerOp ck pinner =>
      (register_collection_host collection ck pinner).map (·.fst)
  | .pinnerClaimOp ps vault =>
      (claim_rewards collection ps vault).map (·.collection)

/-- Run a sequence of pinner-ledger operations; any failure aborts the run. -/
def run_collection_ops (collection : CollectionState) :
    List CollectionRewardOp → Except ProtocolError CollectionState
  | [] => .ok collection
  | op :: ops => do
      let c' ← apply_collection_op collection op
      run_collection_ops c' ops

-- ============================================================================
-- Theorems
-- ============================================================================

theorem four_bucket_sum (v : Nat) :
    (v * 50 / 100 + (v - (v * 50 / 100 + v * 20 / 100 + v * 20 / 100 + v * 10 / 100)))
      + v * 20 / 100 + v * 20 / 100 + v * 10 / 100 = v := by
  omega

/-- Full characterization of a successful `harvest_fees`: the four floor-divided
shares, the remainder folded into the pinner share, exact conservation, and
monotonicity of the pinner accumulator. -/
theorem harvest_fees_ok_spec {authority admin : Pubkey} {c : CollectionState}
    {pe : PerformerEscrow} {v : Nat} {r : HarvestResult}
    (h : harvest_fees authority admin c pe v = .ok r) :
    v > 0 ∧
    r.owner_share = v * SPLIT_OWNER / 100 ∧
    r.performer_share = v * SPLIT_PERFORMER / 100 ∧
    r.staker_share = v * SPLIT_STAKERS / 100 ∧
    r.pinner_share = v * SPLIT_PINNER / 100 +
      (v - (v * SPLIT_PINNER / 100 + v * SPLIT_OWNER / 100 +
            v * SPLIT_PERFORMER / 100 + v * SPLIT_STAKERS / 100)) ∧
    r.pinner_share + r.owner_share + r.performer_share + r.staker_share = v ∧
    c.acc_reward_per_share ≤ r.collection.acc_reward_per_share := by
  unfold harvest_fees at h
  simp only [SPLIT_PINNER, SPLIT_OWNER, SPLIT_PERFORMER, SPLIT_STAKERS] at h
  obtain ⟨hauth, h⟩ := require_bind h
  have h := okv_bind h
  obtain ⟨hv0, h⟩ := require_bind h
  obtain ⟨hb1, h⟩ := cmul64_bind h
  obtain ⟨-, h⟩ := cdiv_bind h
  obtain ⟨hb2, h⟩ := cmul64_bind h
  obtain ⟨-, h⟩ := cdiv_bind h
  obtain ⟨hb3, h⟩ := cmul64_bind h
  obtain ⟨-, h⟩ := cdiv_bind h
  obtain ⟨hb4, h⟩ := cmul64_bind h
  obtain ⟨-, h⟩ := cdiv_bind h
  obtain ⟨-, h⟩ := cadd64_bind h
  obtain ⟨-, h⟩ := cadd64_bind h
  obtain ⟨-, h⟩ := cadd64_bind h
  have h := okv_bind h
  have h := okv_bind h
  have hcond : v * 50 / 100 +
      (v - (v * 50 / 100 + v * 20 / 100 + v * 20 / 100 + v * 10 / 100)) ≤ U64_MAX := by
    omega
  rw [if_pos hcond] at h
  have h := okv_bind h
  have h := okv_bind h
  have h := okv_bind h
  split at h
  · obtain ⟨hs1, h⟩ := cmul128_bind h
    obtain ⟨-, h⟩ := cdiv_bind h
    obtain ⟨-, h⟩ := cadd128_bind h
    have h := okv_bind h
    obtain ⟨-, h⟩ := cadd64_bind h
    obtain ⟨-, h⟩ := cadd64_bind h
    obtain ⟨-, h⟩ := cadd64_bind h
    obtain ⟨-, h⟩ := cadd64_bind h
    have h' := ok_inv h
    subst h'
    exact ⟨hv0, rfl, rfl, rfl, rfl, four_bucket_sum v, Nat.le_add_right _ _⟩
  · have h := okv_bind h
    obtain ⟨-, h⟩ := cadd64_bind h
    obtain ⟨-, h⟩ := cadd64_bind h
    obtain ⟨-, h⟩ := cadd64_bind h
    obtain ⟨-, h⟩ := cadd64_bind h
    have h' := ok_inv h
    subst h'
    exact ⟨hv0, rfl, rfl, rfl, rfl, four_bucket_sum v, Nat.le_refl _⟩

theorem fee_split_sum (t fee : Nat) (hle : fee ≤ t) :
    fee + ((t - fee) * 50 / 100 +
      ((t - fee) - ((t - fee) * 50 / 100 + (t - fee) * 50 / 100))) +
      (t - fee) * 50 / 100 = t := by
  omega

/-- Full characterization of a successful `purchase_access`: the four leading
guards held, the ceiling fee, the 50/50 floor split with the remainder folded
into the stakers' portion, exact conservation, the new escrow's fields, and
monotonicity of the staking-pool accumulator. -/
theorem purchase_access_ok_spec {pool : CollectionStakingPool} {a : PurchaseArgs}
    {r : PurchaseResult} (h : purchase_access pool a = .ok r) :
    a.escrow_exists = false ∧
    a.total_amount > 0 ∧
    a.collection.is_blacklisted = false ∧
    a.cid_hash = a.collection.cid_hash ∧
    r.fee = (a.total_amount * a.fee_basis_points + (10000 - 1)) / 10000 ∧
    r.fee ≤ a.total_amount ∧
    r.to_escrow = (a.total_amount - r.fee) * 50 / 100 ∧
    r.to_stakers = (a.total_amount - r.fee) * 50 / 100 +
      ((a.total_amount - r.fee) -
        ((a.total_amount - r.fee) * 50 / 100 + (a.total_amount - r.fee) * 50 / 100)) ∧
    r.fee + r.to_stakers + r.to_escrow = a.total_amount ∧
    pool.reward_per_token ≤ r.pool.reward_per_token ∧
    r.pool.total_staked = pool.total_staked ∧
    r.pool.collection = pool.collection ∧
    (pool.total_staked = 0 → r.pool.reward_per_token = pool.reward_per_token) ∧
    r.escrow.amount_locked = r.to_escrow ∧
    r.escrow.created_at = a.now ∧
    r.escrow.purchaser = a.purchaser ∧
    r.escrow.is_cid_revealed = false := by
  unfold purchase_access at h
  simp only [SPLIT_TO_STAKERS, SPLIT_TO_PEERS_ESCROW] at h
  obtain ⟨hg1, h⟩ := require_bind h
  obtain ⟨hg2, h⟩ := require_bind h
  obtain ⟨hg3, h⟩ := require_bind h
  obtain ⟨hg4, h⟩ := require_bind h
  obtain ⟨hb1, h⟩ := cmul64_bind h
  obtain ⟨hb2, h⟩ := cadd64_bind h
  obtain ⟨-, h⟩ := cdiv_bind h
  obtain ⟨hfee_le, h⟩ := csub_bind h
  obtain ⟨hb3, h⟩ := cmul64_bind h
  obtain ⟨-, h⟩ := cdiv_bind h
  obtain ⟨hb4, h⟩ := cmul64_bind h
  obtain ⟨-, h⟩ := cdiv_bind h
  obtain ⟨hb5, h⟩ := cadd64_bind h
  obtain ⟨hsplit_le, h⟩ := csub_bind h
  obtain ⟨hb6, h⟩ := cadd64_bind h
  have h := okv_bind h
  obtain ⟨bal1, hbal1, h⟩ := bind_eq_ok h
  obtain ⟨bal2, hbal2, h⟩ := bind_eq_ok h
  obtain ⟨pool', hpool', h⟩ := bind_eq_ok h
  obtain ⟨bal3, hbal3, h⟩ := bind_eq_ok h
  have h' := ok_inv h
  subst h'
  have hmono := pool_credit_eq_ok hpool'
  exact ⟨hg1, hg2, hg3, hg4, rfl, hfee_le, rfl, rfl,
    fee_split_sum a.total_amount _ hfee_le,
    hmono.1, hmono.2.1, hmono.2.2.1, hmono.2.2.2, rfl, rfl, rfl, rfl⟩

theorem checked_sub_i64_eq (a b d : Int) (h : a - b = d) (hlo : I64_MIN ≤ d)
    (hhi : d ≤ I64_MAX) : checked_sub_i64 a b = .ok d := by
  simp [checked_sub_i64, h, hlo, hhi]

/-- C2: in every successful purchase the fee is the ceiling of
`totalAmount * feeBasisPoints / 10000` (characterized by the two bracketing
inequalities), the after-fee amount is split 50/50 by floor division with the
rounding remainder added to the stakers' portion, and
`fee + toStakers + toEscrow = totalAmount` exactly. -/
theorem purchase_fee_split_conservation (pool : CollectionStakingPool)
    (a : PurchaseArgs) (r : PurchaseResult) (h : purchase_access pool a = .ok r) :
    a.total_amount > 0 ∧
    r.fee = (a.total_amount * a.fee_basis_points + (10000 - 1)) / 10000 ∧
    a.total_amount * a.fee_basis_points ≤ 10000 * r.fee ∧
    10000 * r.fee < a.total_amount * a.fee_basis_points + 10000 ∧
    r.to_escrow = (a.total_amount - r.fee) * 50 / 100 ∧
    r.to_stakers = (a.total_amount - r.fee) * 50 / 100 +
      ((a.total_amount - r.fee) -
        ((a.total_amount - r.fee) * 50 / 100 + (a.total_amount - r.fee) * 50 / 100)) ∧
    r.fee + r.to_stakers + r.to_escrow = a.total_amount := by
  obtain ⟨-, h2, -, -, hfee, -, hesc, hstk, hcons, -⟩ := purchase_access_ok_spec h
  refine ⟨h2, hfee, ?_, ?_, hesc, hstk, hcons⟩
  · rw [hfee]
    omega
  · rw [hfee]
    omega

/-- Concrete staking pool (no stakers) for the C2 witness run. -/
def c2_pool : CollectionStakingPool :=
  { collection := 7, total_staked := 0, reward_per_token := 0 }

/-- Concrete purchase arguments (`totalAmount = 1000`,
`feeBasisPoints = 200`) for the C2 witness run. -/
def c2_args : PurchaseArgs :=
  { purchaser := 5
    collection_key := 7
    total_amount := 1000
    cid_hash := 9
    fee_basis_points := 200
    collection := { owner := 3, cid_hash := 9, is_blacklisted := false
                    total_trust_score := 0, owner_reward_balance := 0
                    staker_reward_balance := 0, reward_pool_balance := 0
                    total_shares := 0, acc_reward_per_share := 0
                    tokens_minted := true, total_videos := 0
                    claimed_bitmap := [], claim_vault_initial_amount := 0 }
    escrow_exists := false
    purchaser_balance := 1000
    now := 0 }

theorem purchase_fee_split_conservation_witness :
    ∃ r, purchase_access c2_pool c2_args = .ok r ∧
      r.fee = 20 ∧ r.to_stakers = 490 ∧ r.to_escrow = 490 ∧
      r.fee + r.to_stakers + r.to_escrow = 1000 := by
  obtain ⟨r, hr⟩ : ∃ r, purchase_access c2_pool c2_args = .ok r := ⟨_, rfl⟩
  obtain ⟨-, hfee, -, -, hesc, hstk, hcons⟩ :=
    purchase_fee_split_conservation c2_pool c2_args r hr
  have hfee20 : r.fee = 20 := by
    rw [hfee]
    rfl
  refine ⟨r, hr, hfee20, ?_, ?_, ?_⟩
  · rw [hstk, hfee20]
    rfl
  · rw [hesc, hfee20]
    rfl
  · simpa [c2_args] using hcons

/-- C7: every successful harvest splits the harvested amount into the four
floor-divided buckets `{hostingPeers 50, owner 20, performer 20, stakers 10}`
percent, adds the rounding remainder to the hosting-peers (pinner) bucket, and
the four final buckets sum exactly to the harvested amount. -/
theorem harvest_split_remainder_to_pinner (authority admin : Pubkey)
    (c : CollectionState) (pe : PerformerEscrow) (harvested : Nat)
    (r : HarvestResult) (h : harvest_fees authority admin c pe harvested = .ok r) :
    harvested > 0 ∧
    r.owner_share = harvested * 20 / 100 ∧
    r.performer_share = harvested * 20 / 100 ∧
    r.staker_share = harvested * 10 / 100 ∧
    r.pinner_share = harvested * 50 / 100 +
      (harvested - (harvested * 50 / 100 + harvested * 20 / 100 +
                    harvested * 20 / 100 + harvested * 10 / 100)) ∧
    r.pinner_share + r.owner_share + r.performer_share + r.staker_share = harvested := by
  have hs := harvest_fees_ok_spec h
  simpa [SPLIT_PINNER, SPLIT_OWNER, SPLIT_PERFORMER, SPLIT_STAKERS] using
    ⟨hs.1, hs.2.1, hs.2.2.1, hs.2.2.2.1, hs.2.2.2.2.1, hs.2.2.2.2.2.1⟩

/-- Concrete collection (owner = 1, no pinner shares) for the C7 witness run. -/
def c7_collection : CollectionState :=
  { owner := 1, cid_hash := 0, is_blacklisted := false, total_trust_score := 0
    owner_reward_balance := 0, staker_reward_balance := 0
    reward_pool_balance := 0, total_shares := 0, acc_reward_per_share := 0
    tokens_minted := true, total_videos := 0, claimed_bitmap := []
    claim_vault_initial_amount := 0 }

theorem harvest_split_remainder_to_pinner_witness :
    ∃ r, harvest_fees 1 2 c7_collection ⟨0⟩ 1007 = .ok r ∧
      r.pinner_share = 505 ∧ r.owner_share = 201 ∧ r.performer_share = 201 ∧
      r.staker_share = 100 ∧
      r.pinner_share + r.owner_share + r.performer_share + r.staker_share = 1007 := by
  obtain ⟨r, hr⟩ : ∃ r, harvest_fees 1 2 c7_collection ⟨0⟩ 1007 = .ok r := ⟨_, rfl⟩
  obtain ⟨-, hosh, hfsh, hssh, hpsh, hsum⟩ :=
    harvest_split_remainder_to_pinner 1 2 c7_collection ⟨0⟩ 1007 r hr
  refine ⟨r, hr, ?_, ?_, ?_, ?_, hsum⟩
  · rw [hpsh]
  · rw [hosh]
  · rw [hfsh]
  · rw [hssh]

/-- C10: on an expired escrow, burn with an actual token balance of 0 fails
with `InsufficientFunds` (so the escrow record is not closed: an error aborts
the whole transaction including the `close = caller` constraint), and a
successful burn destroys exactly the actual balance and closes the record,
which requires that balance to be strictly positive. -/
theorem burn_zero_balance_fails (escrow : AccessEscrow) (now : Int)
    (hexp : burn_time_check escrow.created_at now = .ok ()) :
    burn_expired_escrow escrow now 0 = .error .InsufficientFunds ∧
    (∀ bal r, burn_expired_escrow escrow now bal = .ok r →
      bal > 0 ∧ r.burned = bal ∧ r.escrow_closed = true) := by
  constructor
  · unfold burn_expired_escrow
    rw [hexp, ok_bind, ok_bind, protoRequire_neg _ (by omega), error_bind]
  · intro bal r h
    unfold burn_expired_escrow at h
    obtain ⟨u1, hu1, h⟩ := call_bind (burn_time_check escrow.created_at now) h
    have h := okv_bind h
    obtain ⟨hpos, h⟩ := require_bind h
    have h := okv_bind h
    have h' := ok_inv h
    subst h'
    exact ⟨hpos, rfl, rfl⟩

/-- Concrete expired escrow (created at 0, burn attempted at
`ESCROW_EXPIRY_SECONDS + 1`) for the C10 witness run. -/
def c10_escrow : AccessEscrow :=
  { purchaser := 1, collection := 2, cid_hash := 3, amount_locked := 10
    created_at := 0, is_cid_revealed := false }

theorem burn_zero_balance_fails_witness :
    burn_expired_escrow c10_escrow 86401 0 = .error .InsufficientFunds ∧
    ∃ r, burn_expired_escrow c10_escrow 86401 5 = .ok r ∧
      r.burned = 5 ∧ r.escrow_closed = true := by
  have hexp : burn_time_check c10_escrow.created_at 86401 = .ok () := rfl
  obtain ⟨r, hr⟩ : ∃ r, burn_expired_escrow c10_escrow 86401 5 = .ok r := ⟨_, rfl⟩
  obtain ⟨-, hb, hc⟩ := (burn_zero_balance_fails c10_escrow 86401 hexp).2 5 r hr
  exact ⟨(burn_zero_balance_fails c10_escrow 86401 hexp).1, r, hr, hb, hc⟩

/-- C8: a purchase fails (and, failing, changes no state) when the escrow PDA
for the (purchaser, collection) pair already exists (Anchor `init` collision:
no overwrite), when `totalAmount = 0`, when the collection is blacklisted, and
when the supplied content-reference hash differs from the collection's
recorded hash. -/
theorem purchase_rejections (pool : CollectionStakingPool) (a : PurchaseArgs) :
    (a.escrow_exists = true →
      purchase_access pool a = .error .AccountAlreadyInUse) ∧
    (a.escrow_exists = false → a.total_amount = 0 →
      purchase_access pool a = .error .InsufficientFunds) ∧
    (a.escrow_exists = false → a.total_amount > 0 →
      a.collection.is_blacklisted = true →
      purchase_access pool a = .error .Unauthorized) ∧
    (a.escrow_exists = false → a.total_amount > 0 →
      a.collection.is_blacklisted = false → a.cid_hash ≠ a.collection.cid_hash →
      purchase_access pool a = .error .Unauthorized) := by
  refine ⟨?_, ?_, ?_, ?_⟩
  · intro hex
    unfold purchase_access
    rw [protoRequire_neg _ (by simp [hex]), error_bind]
  · intro hex hz
    unfold purchase_access
    rw [protoRequire_pos _ hex, ok_bind, protoRequire_neg _ (by omega), error_bind]
  · intro hex hpos hblk
    unfold purchase_access
    rw [protoRequire_pos _ hex, ok_bind, protoRequire_pos _ hpos, ok_bind,
      protoRequire_neg _ (by simp [hblk]), error_bind]
  · intro hex hpos hblk hhash
    unfold purchase_access
    rw [protoRequire_pos _ hex, ok_bind, protoRequire_pos _ hpos, ok_bind,
      protoRequire_pos _ hblk, ok_bind, protoRequire_neg _ hhash, error_bind]

/-- Base collection for the C8 witness runs. -/
def c8_collection : CollectionState :=
  { owner := 3, cid_hash := 9, is_blacklisted := false, total_trust_score := 0
    owner_reward_balance := 0, staker_reward_balance := 0
    reward_pool_balance := 0, total_shares := 0, acc_reward_per_share := 0
    tokens_minted := true, total_videos := 0, claimed_bitmap := []
    claim_vault_initial_amount := 0 }

/-- Base purchase arguments for the C8 witness runs. -/
def c8_args : PurchaseArgs :=
  { purchaser := 5, collection_key := 7, total_amount := 1000, cid_hash := 9
    fee_basis_points := 200, collection := c8_collection
    escrow_exists := false, purchaser_balance := 1000, now := 0 }

/-- Base staking pool for the C8 witness runs. -/
def c8_pool : CollectionStakingPool :=
  { collection := 7, total_staked := 0, reward_per_token := 0 }

theorem purchase_rejections_witness :
    purchase_access c8_pool { c8_args with escrow_exists := true } =
      .error .AccountAlreadyInUse ∧
    purchase_access c8_pool { c8_args with total_amount := 0 } =
      .error .InsufficientFunds ∧
    purchase_access c8_pool
        { c8_args with collection := { c8_collection with is_blacklisted := true } } =
      .error .Unauthorized ∧
    purchase_access c8_pool { c8_args with cid_hash := 8 } =
      .error .Unauthorized := by
  refine ⟨?_, ?_, ?_, ?_⟩
  · exact (purchase_rejections c8_pool _).1 (by decide)
  · exact (purchase_rejections c8_pool _).2.1 (by decide) (by decide)
  · exact (purchase_rejections c8_pool _).2.2.1 (by decide) (by decide) (by decide)
  · exact (purchase_rejections c8_pool _).2.2.2 (by decide) (by decide) (by decide)
      (by decide)

/-- C9: a stake by a staker with an existing position (`amountStaked > 0`) and
a positive pending reward succeeds without transferring that pending reward
(the source only logs the auto-claim), and resets `rewardDebt` to the new
`amountStaked * rewardPerToken`, so the pending amount computed at stake time
is no longer pending afterwards: it is forfeited, not deferred. -/
theorem stake_forfeits_pending_reward (pool₀ : CollectionStakingPool)
    (position₀ : StakerPosition) (staker collection_key : Pubkey)
    (amount staker_balance : Nat) (r : StakeResult)
    (h : stake_collection_tokens pool₀ position₀ staker collection_key amount
      staker_balance = .ok r)
    (hpool : pool₀.collection ≠ 0) (hpos : position₀.staker ≠ 0)
    (_hstaked : position₀.amount_staked > 0)
    (_hpend : position₀.reward_debt <
      position₀.amount_staked * pool₀.reward_per_token) :
    r.reward_paid = 0 ∧
    r.position.reward_debt =
      (position₀.amount_staked + amount) * pool₀.reward_per_token ∧
    r.position.amount_staked * r.pool.reward_per_token - r.position.reward_debt
      = 0 := by
  unfold stake_collection_tokens at h
  obtain ⟨hamt, h⟩ := require_bind h
  have h := okv_bind h
  have h := okv_bind h
  rw [pool_or_init_ne hpool, position_or_init_ne hpos] at h
  obtain ⟨ac, hac, h⟩ := call_bind (stake_auto_claim position₀ pool₀) h
  obtain ⟨hbal, h⟩ := require_bind h
  obtain ⟨hb1, h⟩ := cadd64_bind h
  obtain ⟨hb2, h⟩ := cadd64_bind h
  obtain ⟨hb3, h⟩ := cmul128_bind h
  have h' := ok_inv h
  subst h'
  exact ⟨rfl, rfl, Nat.sub_self _⟩

/-- Concrete pool and position (existing stake of 10, accumulator 2, debt 0,
hence positive pending) for the C9 witness run. -/
def c9_pool : CollectionStakingPool :=
  { collection := 7, total_staked := 10, reward_per_token := 2 }

/-- Concrete staker position for the C9 witness run. -/
def c9_position : StakerPosition :=
  { staker := 3, collection := 7, amount_staked := 10, reward_debt := 0 }

theorem stake_forfeits_pending_reward_witness :
    c9_position.amount_staked > 0 ∧
    c9_position.reward_debt < c9_position.amount_staked * c9_pool.reward_per_token ∧
    ∃ r, stake_collection_tokens c9_pool c9_position 3 7 5 100 = .ok r ∧
      r.reward_paid = 0 ∧ r.position.reward_debt = 30 ∧
      r.position.amount_staked * r.pool.reward_per_token - r.position.reward_debt
        = 0 := by
  obtain ⟨r, hr⟩ : ∃ r, stake_collection_tokens c9_pool c9_position 3 7 5 100 = .ok r :=
    ⟨_, rfl⟩
  obtain ⟨hzero, hdebt, hforfeit⟩ :=
    stake_forfeits_pending_reward c9_pool c9_position 3 7 5 100 r hr
      (by decide) (by decide) (by decide) (by decide)
  refine ⟨by decide, by decide, r, hr, hzero, ?_, hforfeit⟩
  rw [hdebt]
  rfl

theorem bit_is_claimed_testBit (bm : List Nat) (i : Nat) :
    bit_is_claimed bm i =
      if (bm.getD (i / 8) 0).testBit (i % 8) then 1 else 0 := by
  unfold bit_is_claimed
  rw [Nat.and_one_is_mod, Nat.testBit_to_div_mod, Nat.shiftRight_eq_div_pow]
  rcases Nat.mod_two_eq_zero_or_one (bm.getD (i / 8) 0 / 2 ^ (i % 8)) with h | h <;>
    rw [h] <;> simp

theorem getD_set_cases (bm : List Nat) (p v j : Nat) :
    (bm.set p v).getD j 0 =
      if p = j ∧ p < bm.length then v else bm.getD j 0 := by
  by_cases hpj : p = j
  · subst hpj
    by_cases hlt : p < bm.length
    · simp [List.getD_eq_getElem?_getD, List.getElem?_set_eq_of_lt _ hlt, hlt]
    · rw [List.set_eq_of_length_le (by omega)]
      simp [hlt]
  · simp [List.getD_eq_getElem?_getD, List.getElem?_set_ne hpj, hpj]

theorem set_claim_bit_length (bm : List Nat) (k : Nat) :
    (set_claim_bit bm k).length = bm.length := by
  simp [set_claim_bit]

theorem set_claim_indices_length (idxs : List Nat) : ∀ bm : List Nat,
    (set_claim_indices bm idxs).length = bm.length := by
  induction idxs with
  | nil => intro bm; rfl
  | cons k rest ih =>
    intro bm
    rw [set_claim_indices, ih, set_claim_bit_length]

theorem set_claim_bit_preserves (bm : List Nat) (k i : Nat)
    (h : bit_is_claimed bm i ≠ 0) :
    bit_is_claimed (set_claim_bit bm k) i ≠ 0 := by
  rw [bit_is_claimed_testBit] at h ⊢
  unfold set_claim_bit
  rw [getD_set_cases]
  split
  · rename_i hc
    rw [hc.1, Nat.testBit_or]
    split at h
    · rename_i ht
      rw [ht]
      simp
    · simp at h
  · exact h

theorem set_claim_bit_sets (bm : List Nat) (k : Nat) (h : k / 8 < bm.length) :
    bit_is_claimed (set_claim_bit bm k) k ≠ 0 := by
  rw [bit_is_claimed_testBit]
  unfold set_claim_bit
  rw [getD_set_cases]
  have hc : k / 8 = k / 8 ∧ k / 8 < bm.length := ⟨rfl, h⟩
  rw [if_pos hc, Nat.testBit_or]
  have h2 : (1 <<< (k % 8)).testBit (k % 8) = true := by
    rw [Nat.shiftLeft_eq, one_mul]
    exact Nat.testBit_two_pow_self
  simp [h2]

theorem set_claim_indices_preserves (idxs : List Nat) : ∀ (bm : List Nat) (i : Nat),
    bit_is_claimed bm i ≠ 0 →
    bit_is_claimed (set_claim_indices bm idxs) i ≠ 0 := by
  induction idxs with
  | nil => intro bm i h; exact h
  | cons k rest ih =>
    intro bm i h
    rw [set_claim_indices]
    exact ih _ i (set_claim_bit_preserves bm k i h)

theorem set_claim_indices_sets (idxs : List Nat) : ∀ (bm : List Nat) (i : Nat),
    i ∈ idxs → i / 8 < bm.length →
    bit_is_claimed (set_claim_indices bm idxs) i ≠ 0 := by
  induction idxs with
  | nil =>
    intro bm i hi
    simp at hi
  | cons k rest ih =>
    intro bm i hi hlt
    rw [set_claim_indices]
    rcases List.mem_cons.mp hi with rfl | hi'
    · exact set_claim_indices_preserves rest _ i (set_claim_bit_sets bm i hlt)
    · exact ih (set_claim_bit bm k) i hi' (by rwa [set_claim_bit_length])

theorem check_claim_indices_ok_spec (idxs : List Nat) : ∀ (bm : List Nat) (u : Unit),
    check_claim_indices bm idxs = .ok u →
    ∀ i ∈ idxs, i / 8 < bm.length ∧ bit_is_claimed bm i = 0 := by
  induction idxs with
  | nil =>
    intro bm u h i hi
    simp at hi
  | cons k rest ih =>
    intro bm u h i hi
    unfold check_claim_indices at h
    have h := okv_bind h
    obtain ⟨hbd, h⟩ := require_bind h
    have h := okv_bind h
    obtain ⟨hz, h⟩ := require_bind h
    rcases List.mem_cons.mp hi with rfl | hi'
    · exact ⟨hbd, hz⟩
    · exact ih bm u h i hi'

/-- Success characterization of an approved `resolve_copyright_claim`. -/
theorem resolve_claim_ok_inv {t : ModTicket} {c : CollectionState}
    {vault : Nat} {m : Pubkey} {r : ResolveClaimResult}
    (h : resolve_copyright_claim t c vault m true = .ok r) :
    check_claim_indices c.claimed_bitmap t.claim_indices = .ok () ∧
    r.collection.claimed_bitmap =
      set_claim_indices c.claimed_bitmap t.claim_indices ∧
    r.payout =
      c.claim_vault_initial_amount / c.total_videos * t.claim_indices.length ∧
    r.payout > 0 ∧ r.payout ≤ vault ∧
    r.claim_vault_balance = vault - r.payout := by
  unfold resolve_copyright_claim at h
  obtain ⟨hty, h⟩ := require_bind h
  obtain ⟨hres, h⟩ := require_bind h
  have h := okv_bind h
  rw [if_pos rfl] at h
  obtain ⟨hmint, h⟩ := require_bind h
  obtain ⟨hne, h⟩ := require_bind h
  obtain ⟨cu, hcheck, h⟩ :=
    call_bind (check_claim_indices c.claimed_bitmap t.claim_indices) h
  cases cu
  have h := okv_bind h
  obtain ⟨hdz, h⟩ := cdiv_bind h
  obtain ⟨hpb, h⟩ := cmul64_bind h
  obtain ⟨hpos, h⟩ := require_bind h
  have h := okv_bind h
  obtain ⟨hvault, h⟩ := require_bind h
  have h' := ok_inv h
  subst h'
  exact ⟨hcheck, rfl, rfl, hpos, hvault, rfl⟩

/-- C3: for an approved copyright-claim resolution, any claimed index whose
bitmap bit is already set makes the operation fail (an error aborts the
transaction, so vault balance and bitmap are unchanged); a successful
resolution requires every claimed bit to have been unset, sets exactly the
claimed bits, and transfers exactly
`floor(claimVaultInitialAmount / totalVideos) * claimedCount`, which the
guard requires to be positive; consequently a later approved resolution
claiming any already-claimed index fails. -/
theorem resolve_claim_bitmap_guard (t : ModTicket) (c : CollectionState)
    (claim_vault_balance : Nat) (moderator : Pubkey) :
    (∀ i ∈ t.claim_indices, bit_is_claimed c.claimed_bitmap i ≠ 0 →
      ∃ e, resolve_copyright_claim t c claim_vault_balance moderator true =
        .error e) ∧
    (∀ r, resolve_copyright_claim t c claim_vault_balance moderator true =
        .ok r →
      (∀ i ∈ t.claim_indices, bit_is_claimed c.claimed_bitmap i = 0) ∧
      r.collection.claimed_bitmap =
        set_claim_indices c.claimed_bitmap t.claim_indices ∧
      r.payout =
        c.claim_vault_initial_amount / c.total_videos *
          t.claim_indices.length ∧
      r.payout > 0 ∧ r.payout ≤ claim_vault_balance ∧
      r.claim_vault_balance = claim_vault_balance - r.payout ∧
      (∀ (t2 : ModTicket) (vault2 : Nat) (mod2 : Pubkey) (i : Nat),
        i ∈ t.claim_indices → i ∈ t2.claim_indices →
        ∃ e, resolve_copyright_claim t2 r.collection vault2 mod2 true =
          .error e)) := by
  constructor
  · intro i hi hbit
    cases hres : resolve_copyright_claim t c claim_vault_balance moderator true with
    | error e => exact ⟨e, rfl⟩
    | ok r =>
      obtain ⟨hcheck, -⟩ := resolve_claim_ok_inv hres
      exact absurd
        ((check_claim_indices_ok_spec t.claim_indices c.claimed_bitmap ()
          hcheck i hi).2) hbit
  · intro r hres
    obtain ⟨hcheck, hbm, hpay, hpos, hle, hbal⟩ := resolve_claim_ok_inv hres
    refine ⟨fun i hi =>
      (check_claim_indices_ok_spec t.claim_indices c.claimed_bitmap ()
        hcheck i hi).2, hbm, hpay, hpos, hle, hbal, ?_⟩
    intro t2 vault2 mod2 i hi1 hi2
    have hlt : i / 8 < c.claimed_bitmap.length :=
      (check_claim_indices_ok_spec t.claim_indices c.claimed_bitmap ()
        hcheck i hi1).1
    have hset : bit_is_claimed r.collection.claimed_bitmap i ≠ 0 := by
      rw [hbm]
      exact set_claim_indices_sets t.claim_indices c.claimed_bitmap i hi1 hlt
    cases hres2 : resolve_copyright_claim t2 r.collection vault2 mod2 true with
    | error e => exact ⟨e, rfl⟩
    | ok r2 =>
      obtain ⟨hcheck2, -⟩ := resolve_claim_ok_inv hres2
      exact absurd
        ((check_claim_indices_ok_spec t2.claim_indices
          r.collection.claimed_bitmap () hcheck2 i hi2).2) hset

/-- Collection for the C3 witness run: 10 videos, 2 bitmap bytes, claim vault
snapshot 1000. -/
def c3_collection : CollectionState :=
  { owner := 3, cid_hash := 9, is_blacklisted := false, total_trust_score := 0
    owner_reward_balance := 0, staker_reward_balance := 0
    reward_pool_balance := 0, total_shares := 0, acc_reward_per_share := 0
    tokens_minted := true, total_videos := 10, claimed_bitmap := [0, 0]
    claim_vault_initial_amount := 1000 }

/-- Approved ticket claiming indices 0 and 1 for the C3 witness run. -/
def c3_ticket : ModTicket :=
  { reporter := 4, ticket_type := .CopyrightClaim, resolved := false
    verdict := false, resolver := none, claim_indices := [0, 1] }

/-- A second ticket re-claiming index 0 for the C3 witness run. -/
def c3_ticket2 : ModTicket :=
  { reporter := 6, ticket_type := .CopyrightClaim, resolved := false
    verdict := false, resolver := none, claim_indices := [0] }

theorem resolve_claim_bitmap_guard_witness :
    ∃ r, resolve_copyright_claim c3_ticket c3_collection 1000 9 true = .ok r ∧
      r.payout = 200 ∧ r.claim_vault_balance = 800 ∧
      ∃ e, resolve_copyright_claim c3_ticket2 r.collection 800 9 true =
        .error e := by
  obtain ⟨r, hr⟩ : ∃ r,
      resolve_copyright_claim c3_ticket c3_collection 1000 9 true = .ok r :=
    ⟨_, rfl⟩
  have hspec := (resolve_claim_bitmap_guard c3_ticket c3_collection 1000 9).2 r hr
  refine ⟨r, hr, ?_, ?_, ?_⟩
  · rw [hspec.2.2.1]
    rfl
  · rw [hspec.2.2.2.2.2.1, hspec.2.2.1]
    rfl
  · exact hspec.2.2.2.2.2.2 c3_ticket2 800 9 0 (by decide) (by decide)

/-- Per-peer payment amounts as the claim states them: for each weight in
list order, `share = floor(lockedAmount * weight / totalWeight)`, clamped to
`min(share, lockedAmount - totalSentSoFar)`. -/
def clamped_shares (amount_locked total_weight : Nat) :
    List Nat → Nat → List Nat
  | [], _ => []
  | w :: ws, sent =>
      let share := amount_locked * w / total_weight
      let remaining := amount_locked - sent
      let amt := if share > remaining then remaining else share
      amt :: clamped_shares amount_locked total_weight ws (sent + amt)

/-- The peer loop pays exactly the clamped shares, in order, and never sends
past the locked amount. -/
theorem release_loop_spec (locked W : Nat) (mint : Pubkey) (now : Int) :
    ∀ (ws : List Pubkey) (wts : List Nat) (pas : List PeerAccounts)
      (sent bal : Nat)
      (out : Nat × Nat × List (Pubkey × Nat) × List PeerTrustState),
      ws.length = wts.length → sent ≤ locked →
      release_loop locked W mint now ws wts pas sent bal = .ok out →
      out.2.2.1.map Prod.snd = clamped_shares locked W wts sent ∧
      out.1 = sent + (out.2.2.1.map Prod.snd).sum ∧
      out.1 ≤ locked := by
  intro ws
  induction ws with
  | nil =>
    intro wts pas sent bal out hlen hsent h
    cases wts with
    | nil =>
      have h' := ok_inv (h := h)
      subst h'
      exact ⟨rfl, by simp, hsent⟩
    | cons wt wts' => simp at hlen
  | cons w ws ih =>
    intro wts pas sent bal out hlen hsent h
    cases wts with
    | nil => simp at hlen
    | cons wt wts' =>
      cases pas with
      | nil =>
        have hred : release_loop locked W mint now (w :: ws) (wt :: wts') []
            sent bal = .error .InvalidFeeConfig := rfl
        rw [hred] at h
        cases h
      | cons pa pas' =>
        have hlen' : ws.length = wts'.length := by
          simpa using hlen
        unfold release_loop at h
        obtain ⟨hmul, h⟩ := cmul64_bind h
        obtain ⟨hW, h⟩ := cdiv_bind h
        obtain ⟨hsub, h⟩ := csub_bind h
        obtain ⟨amt, hamt, h⟩ := bind_eq_ok h
        have hamt' : amt = if locked * wt / W > locked - sent
            then locked - sent else locked * wt / W := ok_inv hamt
        have hamt_le : sent + amt ≤ locked := by
          rw [hamt']
          split
          · omega
          · omega
        split at h
        · obtain ⟨hown, h⟩ := require_bind h
          obtain ⟨hmint, h⟩ := require_bind h
          obtain ⟨tu, htu, h⟩ :=
            call_bind (peer_trust_update pa.trust w wt now) h
          obtain ⟨hbal, h⟩ := require_bind h
          obtain ⟨hsent64, h⟩ := cadd64_bind h
          obtain ⟨rest, hrest, h⟩ :=
            call_bind (release_loop locked W mint now ws wts' pas'
              (sent + amt) (bal - amt)) h
          obtain ⟨fs, fb, pays, trusts⟩ := rest
          obtain ⟨hmap, hsum, hle⟩ :=
            ih wts' pas' (sent + amt) (bal - amt) (fs, fb, pays, trusts)
              hlen' hamt_le hrest
          dsimp only at hmap hsum hle
          have h' := ok_inv h
          subst h'
          dsimp only
          refine ⟨?_, ?_, hle⟩
          · simp only [List.map_cons, hmap]
            rw [clamped_shares, ← hamt']
          · simp only [List.map_cons, List.sum_cons]
            omega
        · rename_i hz
          obtain ⟨rest, hrest, h⟩ :=
            call_bind (release_loop locked W mint now ws wts' pas'
              sent bal) h
          obtain ⟨fs, fb, pays, trusts⟩ := rest
          obtain ⟨hmap, hsum, hle⟩ :=
            ih wts' pas' sent bal (fs, fb, pays, trusts) hlen' hsent hrest
          dsimp only at hmap hsum hle
          have hz0 : amt = 0 := by omega
          have h' := ok_inv h
          subst h'
          dsimp only
          refine ⟨?_, ?_, hle⟩
          · simp only [List.map_cons, hmap]
            rw [clamped_shares, ← hamt', hz0]
            simp
          · simp only [List.map_cons, List.sum_cons]
            omega

/-- C1: a successful release pays each peer, in list order, the share
`floor(lockedAmount * weight / totalWeight)` clamped to
`min(share, lockedAmount - totalSentSoFar)`; the total paid never exceeds the
locked amount before the call, and afterwards the escrow's `amount_locked` is
0. -/
theorem release_escrow_conservation (escrow : AccessEscrow)
    (collection : CollectionState) (mint_key : Pubkey) (now : Int)
    (escrow_token_balance : Nat) (peer_wallets : List Pubkey)
    (peer_weights : List Nat) (peer_accounts : List PeerAccounts)
    (r : ReleaseResult)
    (h : release_escrow escrow collection mint_key now escrow_token_balance
      peer_wallets peer_weights peer_accounts = .ok r) :
    r.payments.map Prod.snd =
      clamped_shares escrow.amount_locked peer_weights.sum peer_weights 0 ∧
    (r.payments.map Prod.snd).sum ≤ escrow.amount_locked ∧
    r.escrow.amount_locked = 0 := by
  unfold release_escrow at h
  obtain ⟨hlen, h⟩ := require_bind h
  obtain ⟨hmax, h⟩ := require_bind h
  obtain ⟨tc, htc, h⟩ :=
    call_bind (release_time_check escrow.created_at now) h
  obtain ⟨hlocked, h⟩ := require_bind h
  have h := okv_bind h
  obtain ⟨hW, h⟩ := require_bind h
  have h := okv_bind h
  obtain ⟨hacc, h⟩ := require_bind h
  obtain ⟨lout, hloop, h⟩ :=
    call_bind (release_loop escrow.amount_locked peer_weights.sum mint_key now
      peer_wallets peer_weights peer_accounts 0 escrow_token_balance) h
  obtain ⟨total_sent, final_balance, payments, trust_updates⟩ := lout
  obtain ⟨hmap, hsum, hle⟩ :=
    release_loop_spec escrow.amount_locked peer_weights.sum mint_key now
      peer_wallets peer_weights peer_accounts 0 escrow_token_balance
      (total_sent, final_balance, payments, trust_updates)
      hlen.1 (Nat.zero_le _) hloop
  dsimp only at hmap hsum hle
  have h := okv_bind h
  obtain ⟨hti, h⟩ := cadd64_bind h
  have h' := ok_inv h
  subst h'
  dsimp only
  exact ⟨hmap, by omega, rfl⟩

/-- Peer environment for the C1 witness: three peers with matching token
accounts and no trust records, weights `[1, 1, 1]`, locked amount 100. -/
def c1_escrow : AccessEscrow :=
  { purchaser := 5, collection := 7, cid_hash := 9, amount_locked := 100
    created_at := 0, is_cid_revealed := false }

/-- Collection for the C1 witness run. -/
def c1_collection : CollectionState :=
  { owner := 3, cid_hash := 9, is_blacklisted := false, total_trust_score := 0
    owner_reward_balance := 0, staker_reward_balance := 0
    reward_pool_balance := 0, total_shares := 0, acc_reward_per_share := 0
    tokens_minted := true, total_videos := 0, claimed_bitmap := []
    claim_vault_initial_amount := 0 }

/-- Peer accounts for the C1 witness run (mint 11, owners 21/22/23). -/
def c1_accounts : List PeerAccounts :=
  [{ token := { mint := 11, owner := 21, amount := 0 }, trust := none },
   { token := { mint := 11, owner := 22, amount := 0 }, trust := none },
   { token := { mint := 11, owner := 23, amount := 0 }, trust := none }]

theorem release_escrow_conservation_witness :
    ∃ r, release_escrow c1_escrow c1_collection 11 100 100
        [21, 22, 23] [1, 1, 1] c1_accounts = .ok r ∧
      r.payments.map Prod.snd = [33, 33, 33] ∧
      (r.payments.map Prod.snd).sum ≤ 100 ∧
      r.escrow.amount_locked = 0 := by
  obtain ⟨r, hr⟩ : ∃ r, release_escrow c1_escrow c1_collection 11 100 100
      [21, 22, 23] [1, 1, 1] c1_accounts = .ok r := ⟨_, rfl⟩
  obtain ⟨hmap, hsum, hzero⟩ :=
    release_escrow_conservation c1_escrow c1_collection 11 100 100
      [21, 22, 23] [1, 1, 1] c1_accounts r hr
  refine ⟨r, hr, ?_, ?_, hzero⟩
  · rw [hmap]
    rfl
  · simpa [c1_escrow] using hsum

/-- The saturating remainder step and the `unwrap_or` fallback in
`harvest_fees` never change the outcome: the function agrees with its
fully-checked variant on every input. -/
theorem harvest_fees_matches_checked (authority admin : Pubkey)
    (c : CollectionState) (pe : PerformerEscrow) (v : Nat) :
    harvest_fees authority admin c pe v =
      harvest_fees_all_checked authority admin c pe v := by
  unfold harvest_fees harvest_fees_all_checked
  simp only [SPLIT_PINNER, SPLIT_OWNER, SPLIT_PERFORMER, SPLIT_STAKERS]
  by_cases g1 : authority = c.owner ∨ authority = admin
  case neg =>
    rw [protoRequire_neg _ g1]
    simp only [error_bind]
  rw [protoRequire_pos _ g1]
  simp only [ok_bind]
  by_cases g2 : v > 0
  case neg =>
    rw [protoRequire_neg _ g2]
    simp only [error_bind]
  rw [protoRequire_pos _ g2]
  simp only [ok_bind]
  by_cases m1 : v * 50 ≤ U64_MAX
  case neg =>
    rw [cmul64_err m1]
    simp only [error_bind]
  rw [cmul64_pos m1]
  simp only [ok_bind]
  rw [cdiv100]
  simp only [ok_bind]
  by_cases m2 : v * 20 ≤ U64_MAX
  case neg =>
    rw [cmul64_err m2]
    simp only [error_bind]
  rw [cmul64_pos m2]
  simp only [ok_bind]
  rw [cdiv100]
  simp only [ok_bind]
  by_cases m3 : v * 10 ≤ U64_MAX
  case neg =>
    rw [cmul64_err m3]
    simp only [error_bind]
  rw [cmul64_pos m3]
  simp only [ok_bind]
  rw [cdiv100]
  simp only [ok_bind]
  by_cases a1 : v * 50 / 100 + v * 20 / 100 ≤ U64_MAX
  case neg =>
    rw [cadd64_err a1]
    simp only [error_bind]
  rw [cadd64_pos a1]
  simp only [ok_bind]
  by_cases a2 : v * 50 / 100 + v * 20 / 100 + v * 20 / 100 ≤ U64_MAX
  case neg =>
    rw [cadd64_err a2]
    simp only [error_bind]
  rw [cadd64_pos a2]
  simp only [ok_bind]
  by_cases a3 : v * 50 / 100 + v * 20 / 100 + v * 20 / 100 + v * 10 / 100 ≤ U64_MAX
  case neg =>
    rw [cadd64_err a3]
    simp only [error_bind]
  rw [cadd64_pos a3]
  simp only [ok_bind]
  have hts : v * 50 / 100 + v * 20 / 100 + v * 20 / 100 + v * 10 / 100 ≤ v := by
    omega
  have hfps : v * 50 / 100 +
      (v - (v * 50 / 100 + v * 20 / 100 + v * 20 / 100 + v * 10 / 100)) ≤ U64_MAX := by
    omega
  rw [csub_pos hts]
  simp only [ok_bind]
  rw [cadd64_pos hfps]
  simp only [ok_bind]
  rw [if_pos hfps]

/-- The saturating `pending` computation in the pinner `claim_rewards` either
agrees with the fully-checked variant or, when the subtraction would
underflow, saturates to zero and is then rejected by the `pending > 0` guard:
the operation still fails, with `InsufficientFunds` instead of
`MathOverflow`.  No successful call ever uses a saturated value. -/
theorem claim_rewards_vs_checked (c : CollectionState) (ps : PinnerState)
    (vault : Nat) :
    claim_rewards c ps vault = claim_rewards_all_checked c ps vault ∨
    (claim_rewards c ps vault = .error .InsufficientFunds ∧
     claim_rewards_all_checked c ps vault = .error .MathOverflow) := by
  unfold claim_rewards claim_rewards_all_checked
  by_cases g1 : ps.is_active = true
  case neg =>
    left
    rw [protoRequire_neg _ g1]
    simp only [error_bind]
  rw [protoRequire_pos _ g1]
  simp only [ok_bind]
  by_cases m1 : ps.shares * c.acc_reward_per_share ≤ U128_MAX
  case neg =>
    left
    rw [cmul128_err m1]
    simp only [error_bind]
  rw [cmul128_pos m1]
  simp only [ok_bind]
  by_cases hd : ps.reward_debt ≤ ps.shares * c.acc_reward_per_share
  · left
    rw [csub_pos hd]
    simp only [ok_bind]
  · right
    have hz : ps.shares * c.acc_reward_per_share - ps.reward_debt = 0 := by
      omega
    rw [hz, csub_err hd]
    simp only [error_bind]
    constructor
    · rw [protoRequire_neg _ (by omega)]
      simp only [error_bind]
    · trivial

/-- Staking pool for the truncation part of the amended C6 theorem: the
accumulator is large enough that the scaled pending reward, floor-divided by
`REWARD_PRECISION`, is `2^64 + 1` and no longer fits in a `u64`. -/
def c6_pool : CollectionStakingPool :=
  { collection := 7, total_staked := 1
    reward_per_token := (2 ^ 64 + 1) * REWARD_PRECISION }

/-- Staker position for the truncation part of the amended C6 theorem. -/
def c6_position : StakerPosition :=
  { staker := 3, collection := 7, amount_staked := 1, reward_debt := 0 }

/-- C6 (amended): checked-arithmetic property for the unchecked sites the
source contains.  (1) For the saturating remainder and `unwrap_or` fallback
in `harvest_fees` (treasury.rs lines 109-110), `harvest_fees` is
extensionally equal to its fully-checked variant — they never fire.  (2) For
the saturating pending subtraction in the pinner `claim_rewards`
(pinner.rs lines 113-114), the instruction either agrees with its
fully-checked variant or fails with `InsufficientFunds` where the checked
variant fails with `MathOverflow` — it never succeeds with a saturated
value.  (3) The truncating `as u64` casts of the reward payouts
(staking.rs lines 292 and 395, pinner.rs line 120) do wrap: at a state
whose floor-divided pending reward is `2^64 + 1` tokens,
`claim_staking_rewards` succeeds and pays the truncated amount
`(2^64 + 1) % 2^64 = 1`. -/
theorem checked_arithmetic_amended :
    (∀ (authority admin : Pubkey) (c : CollectionState) (pe : PerformerEscrow)
        (v : Nat),
      harvest_fees authority admin c pe v =
        harvest_fees_all_checked authority admin c pe v) ∧
    (∀ (c : CollectionState) (ps : PinnerState) (vault : Nat),
      claim_rewards c ps vault = claim_rewards_all_checked c ps vault ∨
      (claim_rewards c ps vault = .error .InsufficientFunds ∧
       claim_rewards_all_checked c ps vault = .error .MathOverflow)) ∧
    ((c6_position.amount_staked * c6_pool.reward_per_token -
        c6_position.reward_debt) / REWARD_PRECISION = 2 ^ 64 + 1 ∧
     claim_staking_rewards c6_pool c6_position 1 =
       .ok { position := { staker := 3, collection := 7, amount_staked := 1
                           reward_debt := (2 ^ 64 + 1) * REWARD_PRECISION }
             reward_paid := (2 ^ 64 + 1) % 2 ^ 64 } ∧
     (2 ^ 64 + 1) % 2 ^ 64 = 1) :=
  ⟨harvest_fees_matches_checked, claim_rewards_vs_checked, rfl, rfl, rfl⟩

/-- Collection state for the C6 counterexample (accumulator 0). -/
def c6_collection : CollectionState :=
  { owner := 1, cid_hash := 0, is_blacklisted := false, total_trust_score := 0
    owner_reward_balance := 0, staker_reward_balance := 0
    reward_pool_balance := 0, total_shares := 1, acc_reward_per_share := 0
    tokens_minted := true, total_videos := 0, claimed_bitmap := []
    claim_vault_initial_amount := 0 }

/-- Pinner state for the C6 counterexample: `reward_debt = 1` exceeds
`shares * acc_reward_per_share = 0`, so the pending subtraction underflows. -/
def c6_pinner : PinnerState :=
  { collection := 0, pinner := 2, is_active := true, shares := 1
    reward_debt := 1 }

/-- C6 counterexample: at this state the `saturating_sub` at pinner.rs lines
113-114 saturates to 0 and `claim_rewards` rejects with `InsufficientFunds`,
while the fully-checked reading of the spec aborts the arithmetic step with
`MathOverflow` — so not every arithmetic step on amounts and accumulators is
overflow/underflow-checked as the claim states. -/
theorem checked_arithmetic_counterexample :
    claim_rewards c6_collection c6_pinner 10 = .error .InsufficientFunds ∧
    claim_rewards_all_checked c6_collection c6_pinner 10 = .error .MathOverflow ∧
    claim_rewards c6_collection c6_pinner 10 ≠
      claim_rewards_all_checked c6_collection c6_pinner 10 := by
  refine ⟨rfl, rfl, fun he => ?_⟩
  rw [show claim_rewards c6_collection c6_pinner 10 = .error .InsufficientFunds
        from rfl,
      show claim_rewards_all_checked c6_collection c6_pinner 10 =
        .error .MathOverflow from rfl] at he
  simp at he

/-- C4: Release's timing guard passes at exactly
`createdAt + ESCROW_EXPIRY_SECONDS` and fails with `EscrowExpired` one second
later; Burn's timing guard fails with `EscrowNotExpired` at exactly
`createdAt + ESCROW_EXPIRY_SECONDS` and passes one second later. -/
theorem escrow_expiry_boundary (created_at : Int) :
    release_time_check created_at (created_at + ESCROW_EXPIRY_SECONDS) = .ok () ∧
    release_time_check created_at (created_at + ESCROW_EXPIRY_SECONDS + 1) =
      .error .EscrowExpired ∧
    burn_time_check created_at (created_at + ESCROW_EXPIRY_SECONDS) =
      .error .EscrowNotExpired ∧
    burn_time_check created_at (created_at + ESCROW_EXPIRY_SECONDS + 1) = .ok () := by
  have hA : checked_sub_i64 (created_at + ESCROW_EXPIRY_SECONDS) created_at =
      .ok ESCROW_EXPIRY_SECONDS :=
    checked_sub_i64_eq _ _ _ (by ring) (by decide) (by decide)
  have hB : checked_sub_i64 (created_at + ESCROW_EXPIRY_SECONDS + 1) created_at =
      .ok (ESCROW_EXPIRY_SECONDS + 1) :=
    checked_sub_i64_eq _ _ _ (by ring) (by decide) (by decide)
  refine ⟨?_, ?_, ?_, ?_⟩
  · simp only [release_time_check]
    rw [hA]
    simp [ok_bind, protoRequire, ESCROW_EXPIRY_SECONDS]
  · simp only [release_time_check]
    rw [hB]
    simp [ok_bind, protoRequire, ESCROW_EXPIRY_SECONDS]
  · simp only [burn_time_check]
    rw [hA]
    simp [ok_bind, protoRequire, ESCROW_EXPIRY_SECONDS]
  · simp only [burn_time_check]
    rw [hB]
    simp [ok_bind, protoRequire, ESCROW_EXPIRY_SECONDS]

-- ============================================================================
-- C5: monotonicity of the reward accumulators
-- ============================================================================

theorem map_eq_ok {α β : Type} {g : α → β} {m : Except ProtocolError α} {v : β}
    (h : Except.map g m = .ok v) : ∃ a, m = .ok a ∧ v = g a := by
  cases m with
  | error e => exact absurd h (by simp [Except.map])
  | ok a => exact ⟨a, rfl, ok_inv h⟩

/-- Well-formedness of a staking pool with respect to the `init_if_needed`
sentinel of staking.rs lines 166-171: a pool whose `collection` key is still
`Pubkey::default()` (0 here) has never been initialised, so it carries no
stake and a zero accumulator. -/
def pool_wf (pool : CollectionStakingPool) : Prop :=
  pool.collection = 0 → pool.total_staked = 0 ∧ pool.reward_per_token = 0

/-- Well-formedness of a pool operation: a stake call never passes
`Pubkey::default()` as the collection key (on chain the key is the address of
an existing collection account). -/
def pool_op_wf : StakingPoolOp → Prop
  | .stakeOp _ _ ck _ _ => ck ≠ 0
  | _ => True

/-- Pool effect of a successful `stake_collection_tokens`: modulo the
`init_if_needed` reset, the accumulator is untouched and the stake grows. -/
theorem stake_pool_inv {pool₀ : CollectionStakingPool} {position₀ : StakerPosition}
    {staker ck : Pubkey} {amount bal : Nat} {r : StakeResult}
    (h : stake_collection_tokens pool₀ position₀ staker ck amount bal = .ok r) :
    r.pool.collection = (pool_or_init pool₀ ck).collection ∧
    r.pool.reward_per_token = (pool_or_init pool₀ ck).reward_per_token ∧
    r.pool.total_staked = (pool_or_init pool₀ ck).total_staked + amount := by
  unfold stake_collection_tokens at h
  obtain ⟨hamt, h⟩ := require_bind h
  have h := okv_bind h
  have h := okv_bind h
  obtain ⟨ac, hac, h⟩ := call_bind
    (stake_auto_claim (position_or_init position₀ staker ck) (pool_or_init pool₀ ck)) h
  obtain ⟨hble, h⟩ := require_bind h
  obtain ⟨hb1, h⟩ := cadd64_bind h
  obtain ⟨hb2, h⟩ := cadd64_bind h
  obtain ⟨hb3, h⟩ := cmul128_bind h
  have h' := ok_inv h
  subst h'
  exact ⟨rfl, rfl, rfl⟩

/-- Pool effect of a successful `unstake_collection_tokens`: the accumulator
and collection key are untouched, the stake shrinks by `amount`. -/
theorem unstake_pool_inv {pool : CollectionStakingPool} {position : StakerPosition}
    {amount bal : Nat} {r : UnstakeResult}
    (h : unstake_collection_tokens pool position amount bal = .ok r) :
    r.pool.collection = pool.collection ∧
    r.pool.reward_per_token = pool.reward_per_token ∧
    r.pool.total_staked = pool.total_staked - amount := by
  unfold unstake_collection_tokens at h
  obtain ⟨h1, h⟩ := require_bind h
  obtain ⟨h2, h⟩ := require_bind h
  obtain ⟨hb1, h⟩ := cmul128_bind h
  obtain ⟨hb2, h⟩ := csub_bind h
  have h := okv_bind h
  obtain ⟨hb3, h⟩ := cadd64_bind h
  obtain ⟨h3, h⟩ := require_bind h
  obtain ⟨hb4, h⟩ := csub_bind h
  obtain ⟨hb5, h⟩ := csub_bind h
  obtain ⟨hb6, h⟩ := cmul128_bind h
  have h' := ok_inv h
  subst h'
  exact ⟨rfl, rfl, rfl⟩

/-- `register_collection_host` never moves the pinner accumulator. -/
theorem register_acc_inv {c : CollectionState} {ck pinner : Pubkey}
    {r : CollectionState × PinnerState}
    (h : register_collection_host c ck pinner = .ok r) :
    r.fst.acc_reward_per_share = c.acc_reward_per_share := by
  unfold register_collection_host at h
  have h := okv_bind h
  obtain ⟨hb1, h⟩ := cadd64_bind h
  obtain ⟨hb2, h⟩ := cmul128_bind h
  have h' := ok_inv h
  subst h'
  rfl

/-- The pinner `claim_rewards` never moves the pinner accumulator. -/
theorem pinner_claim_acc_inv {c : CollectionState} {ps : PinnerState}
    {v : Nat} {r : PinnerClaimResult} (h : claim_rewards c ps v = .ok r) :
    r.collection.acc_reward_per_share = c.acc_reward_per_share := by
  unfold claim_rewards at h
  obtain ⟨h1, h⟩ := require_bind h
  obtain ⟨hb1, h⟩ := cmul128_bind h
  have h := okv_bind h
  obtain ⟨h2, h⟩ := require_bind h
  have h := okv_bind h
  obtain ⟨h3, h⟩ := require_bind h
  obtain ⟨h4, h⟩ := require_bind h
  obtain ⟨hb2, h⟩ := csub_bind h
  have h' := ok_inv h
  subst h'
  rfl

/-- One successful staking-pool operation never decreases `reward_per_token`
and preserves pool well-formedness. -/
theorem apply_pool_op_mono {pool pool' : CollectionStakingPool} {op : StakingPoolOp}
    (hwf : pool_wf pool) (hop : pool_op_wf op)
    (h : apply_pool_op pool op = .ok pool') :
    pool.reward_per_token ≤ pool'.reward_per_token ∧ pool_wf pool' := by
  cases op with
  | purchaseOp a =>
      obtain ⟨r, hr, hv⟩ := map_eq_ok h
      subst hv
      obtain ⟨-, -, -, -, -, -, -, -, -, hmono, hts, hcol, hzp, -, -, -, -⟩ :=
        purchase_access_ok_spec hr
      refine ⟨hmono, fun hc0 => ?_⟩
      have hz := hwf (hcol ▸ hc0)
      refine ⟨by rw [hts]; exact hz.1, ?_⟩
      rw [hzp hz.1]
      exact hz.2
  | stakeOp position staker ck amount bal =>
      obtain ⟨r, hr, hv⟩ := map_eq_ok h
      subst hv
      obtain ⟨hcol, hrpt, hts⟩ := stake_pool_inv hr
      constructor
      · by_cases h0 : pool.collection = 0
        · rw [hrpt, (hwf h0).2]
          exact Nat.zero_le _
        · rw [hrpt, pool_or_init_ne h0]
      · intro hc0
        exfalso
        rw [hcol] at hc0
        unfold pool_or_init at hc0
        by_cases h0 : pool.collection = 0
        · rw [if_pos h0] at hc0
          exact absurd hc0 hop
        · rw [if_neg h0] at hc0
          exact absurd hc0 h0
  | unstakeOp position amount bal =>
      obtain ⟨r, hr, hv⟩ := map_eq_ok h
      subst hv
      obtain ⟨hcol, hrpt, hts⟩ := unstake_pool_inv hr
      refine ⟨le_of_eq hrpt.symm, fun hc0 => ?_⟩
      rw [hcol] at hc0
      have hz := hwf hc0
      exact ⟨by rw [hts, hz.1]; simp, by rw [hrpt]; exact hz.2⟩
  | claimOp position bal =>
      obtain ⟨r, hr, hv⟩ := map_eq_ok h
      subst hv
      exact ⟨Nat.le_refl _, hwf⟩

/-- A successful sequence of staking-pool operations never decreases
`reward_per_token`. -/
theorem run_pool_ops_mono (ops : List StakingPoolOp) :
    ∀ pool pool' : CollectionStakingPool, pool_wf pool →
    (∀ op ∈ ops, pool_op_wf op) → run_pool_ops pool ops = .ok pool' →
    pool.reward_per_token ≤ pool'.reward_per_token := by
  induction ops with
  | nil =>
      intro pool pool' _ _ h
      have h' := ok_inv h
      subst h'
      exact Nat.le_refl _
  | cons op ops ih =>
      intro pool pool' hwf hops h
      unfold run_pool_ops at h
      obtain ⟨mid, hmid, h⟩ := bind_eq_ok h
      have hstep := apply_pool_op_mono hwf (hops op (List.mem_cons_self op ops)) hmid
      exact Nat.le_trans hstep.1
        (ih mid pool' hstep.2 (fun o ho => hops o (List.mem_cons_of_mem op ho)) h)

/-- One successful pinner-ledger operation never decreases
`acc_reward_per_share`. -/
theorem apply_collection_op_mono {c c' : CollectionState} {op : CollectionRewardOp}
    (h : apply_collection_op c op = .ok c') :
    c.acc_reward_per_share ≤ c'.acc_reward_per_share := by
  cases op with
  | harvestOp authority admin pe v =>
      obtain ⟨r, hr, hv⟩ := map_eq_ok h
      subst hv
      exact (harvest_fees_ok_spec hr).2.2.2.2.2.2
  | registerOp ck pinner =>
      obtain ⟨r, hr, hv⟩ := map_eq_ok h
      subst hv
      exact le_of_eq (register_acc_inv hr).symm
  | pinnerClaimOp ps v =>
      obtain ⟨r, hr, hv⟩ := map_eq_ok h
      subst hv
      exact le_of_eq (pinner_claim_acc_inv hr).symm

/-- A successful sequence of pinner-ledger operations never decreases
`acc_reward_per_share`. -/
theorem run_collection_ops_mono (ops : List CollectionRewardOp) :
    ∀ c c' : CollectionState, run_collection_ops c ops = .ok c' →
    c.acc_reward_per_share ≤ c'.acc_reward_per_share := by
  induction ops with
  | nil =>
      intro c c' h
      have h' := ok_inv h
      subst h'
      exact Nat.le_refl _
  | cons op ops ih =>
      intro c c' h
      unfold run_collection_ops at h
      obtain ⟨mid, hmid, h⟩ := bind_eq_ok h
      exact Nat.le_trans (apply_collection_op_mono hmid) (ih mid c' h)

/-- C5: for every pool or ledger, the accumulated reward-per-unit value (the
staking pool's `reward_per_token`, the collection's `acc_reward_per_share`)
never decreases across any sequence of operations that succeed: every credit
either leaves it unchanged or adds a non-negative increment.  For the staking
pool the sequence may interleave purchases, stakes, unstakes and claims (the
stake calls pass a real, non-default collection key and the starting pool
respects the `init_if_needed` sentinel); for the collection ledger it may
interleave harvests, host registrations and pinner claims. -/
theorem reward_accumulators_monotonic :
    (∀ (pool pool' : CollectionStakingPool) (ops : List StakingPoolOp),
        pool_wf pool → (∀ op ∈ ops, pool_op_wf op) →
        run_pool_ops pool ops = .ok pool' →
        pool.reward_per_token ≤ pool'.reward_per_token) ∧
    (∀ (c c' : CollectionState) (ops : List CollectionRewardOp),
        run_collection_ops c ops = .ok c' →
        c.acc_reward_per_share ≤ c'.acc_reward_per_share) :=
  ⟨fun pool pool' ops hwf hops h => run_pool_ops_mono ops pool pool' hwf hops h,
   fun c c' ops h => run_collection_ops_mono ops c c' h⟩

/-- Concrete staking pool for the C5 witness run: 10 tokens staked,
accumulator 0. -/
def c5_pool : CollectionStakingPool :=
  { collection := 7, total_staked := 10, reward_per_token := 0 }

/-- Concrete purchase arguments for the C5 witness run. -/
def c5_args : PurchaseArgs :=
  { purchaser := 5
    collection_key := 7
    total_amount := 1000
    cid_hash := 9
    fee_basis_points := 200
    collection := { owner := 3, cid_hash := 9, is_blacklisted := false
                    total_trust_score := 0, owner_reward_balance := 0
                    staker_reward_balance := 0, reward_pool_balance := 0
                    total_shares := 0, acc_reward_per_share := 0
                    tokens_minted := true, total_videos := 0
                    claimed_bitmap := [], claim_vault_initial_amount := 0 }
    escrow_exists := false
    purchaser_balance := 1000
    now := 0 }

/-- C5 witness staking-pool run: a purchase that credits the pool followed by
a fresh stake of 5 tokens. -/
def c5_ops : List StakingPoolOp :=
  [StakingPoolOp.purchaseOp c5_args,
   StakingPoolOp.stakeOp
     { staker := 3, collection := 7, amount_staked := 0, reward_debt := 0 }
     3 7 5 100]

/-- Concrete collection for the C5 witness run: two pinner shares. -/
def c5_collection : CollectionState :=
  { owner := 1, cid_hash := 9, is_blacklisted := false
    total_trust_score := 0, owner_reward_balance := 0
    staker_reward_balance := 0, reward_pool_balance := 0
    total_shares := 2, acc_reward_per_share := 0
    tokens_minted := true, total_videos := 0
    claimed_bitmap := [], claim_vault_initial_amount := 0 }

/-- C5 witness pinner-ledger run: a harvest of 1000 that credits the
accumulator followed by a host registration. -/
def c5_cops : List CollectionRewardOp :=
  [CollectionRewardOp.harvestOp 1 2 { balance := 0 } 1000,
   CollectionRewardOp.registerOp 7 4]

theorem reward_accumulators_monotonic_witness :
    ∃ pool', run_pool_ops c5_pool c5_ops = .ok pool' ∧
      c5_pool.reward_per_token ≤ pool'.reward_per_token ∧
    ∃ c', run_collection_ops c5_collection c5_cops = .ok c' ∧
      c5_collection.acc_reward_per_share ≤ c'.acc_reward_per_share := by
  obtain ⟨pool', hp⟩ : ∃ p, run_pool_ops c5_pool c5_ops = .ok p := ⟨_, rfl⟩
  obtain ⟨c', hc⟩ : ∃ c, run_collection_ops c5_collection c5_cops = .ok c := ⟨_, rfl⟩
  have hwf : pool_wf c5_pool := by
    intro h0
    exact absurd h0 (by decide)
  have hops : ∀ op ∈ c5_ops, pool_op_wf op := by
    intro op hop
    simp only [c5_ops, List.mem_cons, List.not_mem_nil, or_false] at hop
    rcases hop with h | h
    · subst h
      exact trivial
    · subst h
      show (7 : Nat) ≠ 0
      decide
  exact ⟨pool', hp, reward_accumulators_monotonic.1 c5_pool pool' c5_ops hwf hops hp,
    c', hc, reward_accumulators_monotonic.2 c5_collection c' c5_cops hc⟩

end CaptureGem
